import Mathlib

/-!
Verification development for the DNS resolver repository.

Strings of the C++ source (std::string, ASCII) are embedded as `List Char`,
so that character-level operations (label splitting, searching for a colon)
reduce in the kernel.  Machine counters are embedded as `Nat`, with an
explicit `% 2 ^ 32` where the C++ performs 32-bit unsigned arithmetic.
Wall-clock instants are a `Nat` parameter `now` passed to each operation
that reads the clock.  `double` accumulators (RunningStats) are embedded
over `ℚ`, exact arithmetic.  c-ares status codes keep their numeric values
from ares.h.
-/

/-- Status codes, numeric values from ares.h (ares_status_t). -/
def ARES_SUCCESS : Int := 0

/-- ares.h: ARES_ENODATA, the upstream answered with no data of this type. -/
def ARES_ENODATA : Int := 1

/-- ares.h: ARES_ESERVFAIL. -/
def ARES_ESERVFAIL : Int := 3

/-- ares.h: ARES_ENOTFOUND (NXDOMAIN). -/
def ARES_ENOTFOUND : Int := 4

/-- ares.h: ARES_EBADNAME, hostname failed validation. -/
def ARES_EBADNAME : Int := 8

/-- ares.h: ARES_ETIMEOUT. -/
def ARES_ETIMEOUT : Int := 12

/-- ares.h: ARES_EOF; the resolver reports the concurrent-limit rejection
(the spec's Busy) with this status. -/
def ARES_EOF : Int := 13

/-- ares.h: ARES_ENOTINITIALIZED. -/
def ARES_ENOTINITIALIZED : Int := 21

/-- Text of ares_strerror for the statuses this development uses; the
claims never inspect the text itself, only the error kind key. -/
def aresStrerror (status : Int) : List Char :=
  if status = ARES_SUCCESS then "Successful completion".toList
  else if status = ARES_ENODATA then "DNS server returned answer with no data".toList
  else if status = ARES_ESERVFAIL then "DNS server returned general failure".toList
  else if status = ARES_ENOTFOUND then "Domain name not found".toList
  else if status = ARES_EBADNAME then "Misformatted domain name".toList
  else if status = ARES_ETIMEOUT then "Timeout while contacting DNS servers".toList
  else if status = ARES_EOF then "End of file".toList
  else if status = ARES_ENOTINITIALIZED then "Library initialization not yet performed".toList
  else "Unknown error".toList

/-!
Hostname validation, from the anonymous namespace of the resolver
translation unit (BasicMetrics.cpp, isValidHostnameLabel / isValidHostname).
The C++ splits the hostname with std::getline(stream, label, '.'): tokens
are read up to the next '.' or end of input, the delimiter is consumed, and
reading at end of input produces no further token — so a single trailing
'.' yields no trailing empty label.
-/

/-- The pieces of the input around every '.', including a final empty piece
when the input ends with '.' (and a single empty piece for empty input):
the plain dot-split, helper for the getline semantics. -/
def splitDots : List Char → List (List Char)
  | [] => [[]]
  | c :: cs =>
    if c = '.' then [] :: splitDots cs
    else
      match splitDots cs with
      | t :: ts => (c :: t) :: ts
      | [] => [[c]]

/-- Labels of a hostname, following std::getline(stream, label, '.')
semantics: getline reads a token up to the next '.' or end of input and
fails when already at end of input, so an empty stream yields no label at
all and a trailing '.' contributes no final empty label — the dot-split
minus the trailing empty piece. -/
def hostLabels (cs : List Char) : List (List Char) :=
  match cs with
  | [] => []
  | _ =>
    let parts := splitDots cs
    if parts.getLast? = some [] then parts.dropLast else parts

/-- BasicMetrics.cpp isValidHostnameLabel: nonempty, at most 63 octets,
alphanumeric first and last character, every character alphanumeric or
hyphen (std::isalnum in the C locale is ASCII alphanumeric). -/
def isValidHostnameLabel : List Char → Bool
  | [] => false
  | c :: rest =>
    if (c :: rest).length > 63 then false
    else if ¬ c.isAlphanum ∨ ¬ ((c :: rest).getLastD 'a').isAlphanum then false
    else (c :: rest).all (fun ch => ch.isAlphanum || ch = '-')

/-- BasicMetrics.cpp isValidHostname: nonempty, at most 253 octets, every
getline-split label valid. -/
def isValidHostname (hostname : List Char) : Bool :=
  if hostname.isEmpty ∨ hostname.length > 253 then false
  else (hostLabels hostname).all isValidHostnameLabel

/-!
TTL-bounded LRU cache, from LRUCache.cpp / LRUCache.h.  The C++ keeps an
unordered_map from key to entry plus a std::list of keys in LRU order
(MRU at the front), with the two structures mutated in lockstep.  The
embedding merges them into one association list whose order is the LRU
order: erase-from-list + push_front becomes remove + cons, and the LRU
tail is the last element.
-/

/-- One cache entry: value and absolute expiry instant. -/
structure CacheEntry where
  ips : List (List Char)
  expire_time : Nat
deriving DecidableEq, Repr, Inhabited

/-- Lookup of cache_.find(hostname) in the merged association list. -/
def lookupKey (key : List Char) : List (List Char × CacheEntry) → Option CacheEntry
  | [] => none
  | (k, e) :: rest => if k = key then some e else lookupKey key rest

/-- Removal of a key from the merged association list (map erase plus
lru_list erase of that key's iterator). -/
def removeKey (key : List Char) :
    List (List Char × CacheEntry) → List (List Char × CacheEntry)
  | [] => []
  | (k, e) :: rest => if k = key then removeKey key rest else (k, e) :: removeKey key rest

/-- LRUCache::cleanup: drop every entry with expire_time ≤ now (the C++
tests now >= expire_time), keeping the survivors in order. -/
def cleanupEntries (now : Nat) :
    List (List Char × CacheEntry) → List (List Char × CacheEntry)
  | [] => []
  | (k, e) :: rest =>
    if e.expire_time ≤ now then cleanupEntries now rest
    else (k, e) :: cleanupEntries now rest

/-- LRUCache state: capacity, ttl (milliseconds), entries in LRU order
(MRU first), and the hit/miss counters. -/
structure LRUCache where
  max_size : Nat
  ttl : Nat
  entries : List (List Char × CacheEntry)
  hits : Nat
  misses : Nat
deriving DecidableEq, Repr

/-- Freshly constructed cache. -/
def LRUCache.empty (max_size ttl : Nat) : LRUCache :=
  { max_size := max_size, ttl := ttl, entries := [], hits := 0, misses := 0 }

/-- LRUCache::get (LRUCache.cpp lines 4-33): cleanup, then find; a miss
increments misses; a hit on an entry that is nevertheless expired evicts it
and counts a miss (branch kept although the sweep already removed such
entries); a live hit promotes the key to MRU, increments hits and returns
the stored addresses. -/
def LRUCache.get (c : LRUCache) (hostname : List Char) (now : Nat) :
    Option (List (List Char)) × LRUCache :=
  let cleaned := cleanupEntries now c.entries
  match lookupKey hostname cleaned with
  | none => (none, { c with entries := cleaned, misses := c.misses + 1 })
  | some e =>
    if e.expire_time ≤ now then
      (none, { c with entries := removeKey hostname cleaned, misses := c.misses + 1 })
    else
      (some e.ips,
       { c with entries := (hostname, e) :: removeKey hostname cleaned, hits := c.hits + 1 })

/-- LRUCache::update (LRUCache.cpp lines 35-61): replace an existing entry
and move it to MRU with a fresh expiry; otherwise insert at MRU, evicting
the LRU tail first when size ≥ max_size (LRUCache::evict pops the back of
the LRU list). -/
def LRUCache.update (c : LRUCache) (hostname : List Char) (ips : List (List Char))
    (now : Nat) : LRUCache :=
  match lookupKey hostname c.entries with
  | some _ =>
    { c with entries :=
        (hostname, { ips := ips, expire_time := now + c.ttl }) :: removeKey hostname c.entries }
  | none =>
    let base := if c.max_size ≤ c.entries.length then c.entries.dropLast else c.entries
    { c with entries := (hostname, { ips := ips, expire_time := now + c.ttl }) :: base }

/-- LRUCache::remove. -/
def LRUCache.removeEntry (c : LRUCache) (hostname : List Char) : LRUCache :=
  { c with entries := removeKey hostname c.entries }

/-- LRUCache::clear: drop everything and reset the counters. -/
def LRUCache.clearAll (c : LRUCache) : LRUCache :=
  { c with entries := [], hits := 0, misses := 0 }

/-- A cache operation, for invariant statements over operation sequences. -/
inductive CacheOp where
  | get (hostname : List Char) (now : Nat)
  | put (hostname : List Char) (ips : List (List Char)) (now : Nat)
  | remove (hostname : List Char)
  | clear
deriving DecidableEq, Repr

/-- Apply one operation to the cache (the result value of get is dropped). -/
def applyCacheOp (c : LRUCache) : CacheOp → LRUCache
  | .get hostname now => (c.get hostname now).2
  | .put hostname ips now => c.update hostname ips now
  | .remove hostname => c.removeEntry hostname
  | .clear => c.clearAll

/-- Run a sequence of operations from a freshly constructed cache. -/
def runCacheOps (max_size ttl : Nat) (ops : List CacheOp) : LRUCache :=
  ops.foldl applyCacheOp (LRUCache.empty max_size ttl)

/-!
Metrics engine, from BasicMetrics.cpp.  The embedding keeps the six
monotonic counters, the per-kind error statistics and the retry total that
the claims mention; wall-clock timestamp fields, the per-host RunningStats
channels, the bounded sample rings and the periodic cleanup (all driven by
the wall clock and never read by any claim) are not carried.
-/

/-- Per-error-kind statistics (IMetrics::ErrorStats): count and the detail
text of the last occurrence. -/
structure ErrorStat where
  count : Nat
  last_detail : List Char
deriving DecidableEq, Repr

/-- BasicMetrics state: the six counters plus the error map. -/
structure Metrics where
  total_queries : Nat
  successful_queries : Nat
  failed_queries : Nat
  cache_hits : Nat
  cache_misses : Nat
  total_retries : Nat
  error_stats : List (List Char × ErrorStat)
deriving DecidableEq, Repr

/-- All-zero metrics state. -/
def Metrics.empty : Metrics :=
  { total_queries := 0, successful_queries := 0, failed_queries := 0,
    cache_hits := 0, cache_misses := 0, total_retries := 0, error_stats := [] }

/-- BasicMetrics::recordQuery: one more total query, classified as
successful or failed. -/
def Metrics.recordQuery (m : Metrics) (success : Bool) : Metrics :=
  { m with total_queries := m.total_queries + 1,
           successful_queries := if success then m.successful_queries + 1 else m.successful_queries,
           failed_queries := if success then m.failed_queries else m.failed_queries + 1 }

/-- error_stats_[type] access-and-increment of BasicMetrics::recordError:
bump the entry in place, or append a fresh one. -/
def bumpErrorStat (ty detail : List Char) :
    List (List Char × ErrorStat) → List (List Char × ErrorStat)
  | [] => [(ty, { count := 1, last_detail := detail })]
  | (t, s) :: rest =>
    if t = ty then (t, { count := s.count + 1, last_detail := detail }) :: rest
    else (t, s) :: bumpErrorStat ty detail rest

/-- BasicMetrics::recordError. -/
def Metrics.recordError (m : Metrics) (ty detail : List Char) : Metrics :=
  { m with error_stats := bumpErrorStat ty detail m.error_stats }

/-- BasicMetrics::recordRetry: one more total retry. -/
def Metrics.recordRetry (m : Metrics) : Metrics :=
  { m with total_retries := m.total_retries + 1 }

/-- BasicMetrics::recordCacheHit. -/
def Metrics.recordCacheHit (m : Metrics) : Metrics :=
  { m with cache_hits := m.cache_hits + 1 }

/-- BasicMetrics::recordCacheMiss. -/
def Metrics.recordCacheMiss (m : Metrics) : Metrics :=
  { m with cache_misses := m.cache_misses + 1 }

/-- Count of an error kind in the metrics error map. -/
def errorCount (m : Metrics) (ty : List Char) : Nat :=
  match m.error_stats.find? (fun p => p.1 = ty) with
  | some (_, s) => s.count
  | none => 0

/-!
Configuration, from interface/Common.h, restricted to the fields the
resolver pipeline reads (metrics and plugin configuration are never
consulted by the claims).
-/

/-- One upstream server (DNSServerConfig). -/
structure DNSServerConfig where
  address : List Char
  port : Nat
  weight : Nat
  timeout_ms : Nat
  enabled : Bool
deriving DecidableEq, Repr, Inhabited

/-- Cache configuration (CacheConfig): ttl in milliseconds. -/
structure CacheConfig where
  enabled : Bool
  ttl : Nat
  max_size : Nat
deriving DecidableEq, Repr

/-- Retry configuration (RetryConfig); all three fields uint32 in C++. -/
structure RetryConfig where
  max_attempts : Nat
  base_delay_ms : Nat
  max_delay_ms : Nat
deriving DecidableEq, Repr

/-- Resolver configuration (DNSResolverConfig). -/
structure DNSResolverConfig where
  servers : List DNSServerConfig
  cache : CacheConfig
  retry : RetryConfig
  query_timeout_ms : Nat
  max_concurrent_queries : Nat
  ipv6_enabled : Bool
  server_error_threshold : Nat
deriving DecidableEq, Repr

/-- validateConfig from the resolver translation unit: at least one server,
query timeout within 100..30000, retry attempts within 1..10, base delay at
least 10 and max delay at least the base delay. -/
def validateConfig (config : DNSResolverConfig) : Bool :=
  if config.servers.isEmpty then false
  else if config.query_timeout_ms < 100 ∨ 30000 < config.query_timeout_ms then false
  else if config.retry.max_attempts < 1 ∨ 10 < config.retry.max_attempts
      ∨ config.retry.base_delay_ms < 10
      ∨ config.retry.max_delay_ms < config.retry.base_delay_ms then false
  else true

/-!
The resolver orchestrator, from DNSResolver (BasicMetrics.cpp lines
630-910).  Callback invocations, event publications, metrics calls, cache
probes and strategy dispatches are recorded as an ordered effect trace;
metrics_ and eventPublisher_ are taken as present (non-null), the
collaborators the spec assumes.  ResolveResult.error, always
ares_strerror(status), is not carried as a separate field.
-/

/-- ResolveResult (interface/Common.h) without the derived error text. -/
structure ResolveResult where
  status : Int
  hostname : List Char
  ip_addresses : List (List Char)
  resolution_time : Int
  from_cache : Bool
deriving DecidableEq, Repr

/-- DNSAddressEvent (interface/IMetrics.h companion header). -/
structure DNSAddressEvent where
  hostname : List Char
  old_addresses : List (List Char)
  new_addresses : List (List Char)
  timestamp : Nat
  source : List Char
  ttl : Nat
  record_type : List Char
  is_authoritative : Bool
deriving DecidableEq, Repr

/-- Observable side effects of the resolver, in program order. -/
inductive Effect where
  | cbInvoke (result : ResolveResult)
  | publishQueryStarted (hostname : List Char)
  | publishQueryCompleted (hostname : List Char) (ips : List (List Char)) (success : Bool)
  | publishAddressChanged (event : DNSAddressEvent)
  | recordCacheHit (hostname : List Char)
  | recordCacheMiss (hostname : List Char)
  | recordQuery (hostname : List Char) (duration : Int) (success : Bool)
  | recordError (ty : List Char) (detail : List Char)
  | recordRetry (hostname : List Char) (attempt : Nat)
  | cacheProbe (hostname : List Char)
  | cacheUpdate (hostname : List Char) (ips : List (List Char))
  | sleep (delay_ms : Nat)
  | dispatchQuery (hostname : List Char) (retry_count : Nat)
deriving DecidableEq, Repr

/-- Resolver state: the initialized flag, the current configuration held by
the ConfigManager, the size of DNSResolver::active_contexts_ (a vector the
resolver reads in its admission check), the active cache and the metrics. -/
structure ResolverState where
  initialized : Bool
  config : DNSResolverConfig
  active_contexts : Nat
  cache : LRUCache
  metrics : Metrics
deriving DecidableEq, Repr

/-- DNSResolver::notifyAddressChange (BasicMetrics.cpp lines 863-879): the
record type is "AAAA" exactly when the FIRST new address contains a colon
(new_addresses[0].find(':') != npos). -/
def mkAddressEvent (config : DNSResolverConfig) (hostname : List Char)
    (old_addresses new_addresses : List (List Char)) (now : Nat) : DNSAddressEvent :=
  { hostname := hostname,
    old_addresses := old_addresses,
    new_addresses := new_addresses,
    timestamp := now,
    source := "dns_resolver".toList,
    ttl := config.cache.ttl,
    record_type := if new_addresses.headI.contains ':' then "AAAA".toList else "A".toList,
    is_authoritative := false }

/-- DNSResolver::resolve (BasicMetrics.cpp lines 630-728): admission checks
(initialized, hostname validity, concurrent ceiling against the size of the
resolver's own active_contexts_ vector), then query-started event, cache
probe, and either the cache-hit fast path or a miss recorded and a dispatch
to the active query strategy with retry_count 0. -/
def DNSResolver.resolve (st : ResolverState) (hostname : List Char) (now : Nat) :
    ResolverState × List Effect :=
  if st.initialized = false then
    (st, [.cbInvoke { status := ARES_ENOTINITIALIZED, hostname := hostname,
                      ip_addresses := [], resolution_time := 0, from_cache := false }])
  else if isValidHostname hostname = false then
    (st, [.cbInvoke { status := ARES_EBADNAME, hostname := hostname,
                      ip_addresses := [], resolution_time := 0, from_cache := false }])
  else if st.config.max_concurrent_queries ≤ st.active_contexts then
    (st, [.cbInvoke { status := ARES_EOF, hostname := hostname,
                      ip_addresses := [], resolution_time := 0, from_cache := false }])
  else
    match st.cache.get hostname now with
    | (some ips, cache2) =>
      ({ st with cache := cache2, metrics := st.metrics.recordCacheHit },
       [.publishQueryStarted hostname, .cacheProbe hostname, .recordCacheHit hostname,
        .cbInvoke { status := ARES_SUCCESS, hostname := hostname, ip_addresses := ips,
                    resolution_time := 0, from_cache := true },
        .publishQueryCompleted hostname ips true])
    | (none, cache2) =>
      ({ st with cache := cache2, metrics := st.metrics.recordCacheMiss },
       [.publishQueryStarted hostname, .cacheProbe hostname, .recordCacheMiss hostname,
        .dispatchQuery hostname 0])

/-- Output of one DNSResolver::handleQueryResult invocation: the new state,
the effect trace, and — when the failure is retried — the incremented retry
count and backoff delay of the re-dispatch. -/
structure HQROut where
  state : ResolverState
  effects : List Effect
  redispatch : Option (Nat × Nat)
deriving DecidableEq, Repr

/-- DNSResolver::handleQueryResult (BasicMetrics.cpp lines 730-791): probe
the cache for the old addresses, record the query (and the resolution
failure), then either refresh the cache and publish an address change, or
retry a retryable failure under the attempt ceiling with exponential
backoff, or fall through to the user callback and the query-completed
event.  The C++ computes the delay as
base_delay_ms * (1 << (retry_count - 1)) in 32-bit unsigned arithmetic,
hence the % 2 ^ 32. -/
def DNSResolver.handleQueryResult (st : ResolverState) (retry_count : Nat)
    (result : ResolveResult) (now : Nat) : HQROut :=
  let probe := st.cache.get result.hostname now
  let old_addresses := match probe.1 with | some ips => ips | none => []
  let cache1 := probe.2
  let succ : Bool := result.status = ARES_SUCCESS
  let m1 := st.metrics.recordQuery succ
  let m2 := if result.status = ARES_SUCCESS then m1
            else m1.recordError "resolution_failure".toList (aresStrerror result.status)
  let effs0 := [Effect.cacheProbe result.hostname,
                Effect.recordQuery result.hostname result.resolution_time succ]
               ++ (if result.status = ARES_SUCCESS then []
                   else [Effect.recordError "resolution_failure".toList (aresStrerror result.status)])
  if result.status = ARES_SUCCESS ∧ result.ip_addresses ≠ [] then
    let cache2 := cache1.update result.hostname result.ip_addresses now
    let changeEffs :=
      if old_addresses ≠ result.ip_addresses then
        [Effect.publishAddressChanged
           (mkAddressEvent st.config result.hostname old_addresses result.ip_addresses now)]
      else []
    { state := { st with cache := cache2, metrics := m2 },
      effects := effs0 ++ [Effect.cacheUpdate result.hostname result.ip_addresses]
                 ++ changeEffs
                 ++ [Effect.cbInvoke result,
                     Effect.publishQueryCompleted result.hostname result.ip_addresses succ],
      redispatch := none }
  else if result.status ≠ ARES_SUCCESS ∧ result.status ≠ ARES_ENODATA
          ∧ result.status ≠ ARES_ENOTFOUND
          ∧ retry_count < st.config.retry.max_attempts then
    let rc2 := retry_count + 1
    let m3 := m2.recordRetry
    let delay := min ((st.config.retry.base_delay_ms * (1 <<< (rc2 - 1))) % 2 ^ 32)
                     st.config.retry.max_delay_ms
    { state := { st with cache := cache1, metrics := m3 },
      effects := effs0 ++ [Effect.recordRetry result.hostname rc2,
                           Effect.sleep delay, Effect.dispatchQuery result.hostname rc2],
      redispatch := some (rc2, delay) }
  else
    { state := { st with cache := cache1, metrics := m2 },
      effects := effs0 ++ [Effect.cbInvoke result,
                           Effect.publishQueryCompleted result.hostname result.ip_addresses succ],
      redispatch := none }

/-- Drive the result handler through a list of successive strategy attempt
results: while the handler re-dispatches, the next result of the list is
delivered with the incremented retry count. -/
def DNSResolver.runAttempts (st : ResolverState) (retry_count : Nat) (now : Nat) :
    List ResolveResult → ResolverState × List Effect
  | [] => (st, [])
  | r :: rs =>
    let out := DNSResolver.handleQueryResult st retry_count r now
    match out.redispatch with
    | some (rc2, _) =>
      let next := DNSResolver.runAttempts out.state rc2 now rs
      (next.1, out.effects ++ next.2)
    | none => (out.state, out.effects)

/-- Number of recordQuery effects in a trace. -/
def countRecordQuery (effects : List Effect) : Nat :=
  effects.countP (fun e => match e with | .recordQuery _ _ _ => true | _ => false)

/-- Number of callback invocations in a trace. -/
def countCbInvoke (effects : List Effect) : Nat :=
  effects.countP (fun e => match e with | .cbInvoke _ => true | _ => false)

/-- Number of address-changed publications in a trace. -/
def countAddressChanged (effects : List Effect) : Nat :=
  effects.countP (fun e => match e with | .publishAddressChanged _ => true | _ => false)

/-!
Upstream server selection, from CaresQueryStrategy::selectServer
(CaresQueryStrategy.cpp lines 230-262).  The class header is not among the
sources; the per-server health record is modelled from the spec (§3
ServerHealth: healthy flag, error count, average latency) and from its
uses in the .cpp.  Scores are doubles in the C++; the embedding computes
them exactly over ℚ.  std::ranges::sort is NOT a stable sort, so the order
of equal-score servers after sorting is unspecified: the selection is
embedded as a relation admitting every permutation of the eligible list
that is sorted by descending score.
-/

/-- Per-server health record (spec §3; CaresQueryStrategy.h is not among
the sources). -/
structure ServerHealth where
  healthy : Bool
  error_count : Nat
  avg_latency_ms : Nat
deriving DecidableEq, Repr

/-- server_health_ map lookup. -/
def healthLookup (health : List (List Char × ServerHealth)) (key : List Char) :
    Option ServerHealth :=
  match health.find? (fun p => p.1 = key) with
  | some (_, h) => some h
  | none => none

/-- Score of a server: weight / (1.0 + avg_latency_ms). -/
def serverScore (weight avg_latency_ms : Nat) : ℚ :=
  (weight : ℚ) / (1 + (avg_latency_ms : ℚ))

/-- The eligible servers with their scores, in configuration order: enabled,
present in the health map, and healthy (selectServer's first loop). -/
def availableServers (servers : List DNSServerConfig)
    (health : List (List Char × ServerHealth)) : List (List Char × ℚ) :=
  servers.filterMap (fun s =>
    match healthLookup health s.address with
    | some hrec =>
      if s.enabled && hrec.healthy then
        some (s.address, serverScore s.weight hrec.avg_latency_ms)
      else none
    | none => none)

/-- Recovery: flip every tracked server back to healthy with a zero error
count (selectServer's no-eligible-server branch). -/
def resetHealth (health : List (List Char × ServerHealth)) :
    List (List Char × ServerHealth) :=
  health.map (fun p => (p.1, { p.2 with healthy := true, error_count := 0 }))

/-- Sortedness criterion of std::ranges::sort with comparator
a.second > b.second: every adjacent pair is non-increasing in score. -/
def SortedByScoreDesc (l : List (List Char × ℚ)) : Prop :=
  List.Chain' (fun a b => b.2 ≤ a.2) l

/-- CaresQueryStrategy::selectServer as a relation between the inputs and
the (returned address, updated health map) pair.  With no configured server
the empty string is returned; with no eligible server every tracked server
is reset and the first configured address is returned; otherwise the
eligible list is sorted by descending score with an UNSTABLE sort — any
descending-sorted permutation is a possible outcome — and the front's
address is returned. -/
def SelectServerOutcome (servers : List DNSServerConfig)
    (health : List (List Char × ServerHealth))
    (out : List Char) (health2 : List (List Char × ServerHealth)) : Prop :=
  match servers with
  | [] => out = [] ∧ health2 = health
  | s0 :: _ =>
    if availableServers servers health = [] then
      out = s0.address ∧ health2 = resetHealth health
    else
      ∃ q rest, ((out, q) :: rest).Perm (availableServers servers health)
        ∧ SortedByScoreDesc ((out, q) :: rest) ∧ health2 = health

/-- The selection the spec describes (§4.2): the highest-scoring eligible
server with ties broken by configuration order — i.e. the first eligible
server attaining the maximum score.  Stated from the spec's words, for
comparison with the unstable-sort behaviour of the source. -/
def selectServerSpec (servers : List DNSServerConfig)
    (health : List (List Char × ServerHealth)) : List Char :=
  match servers with
  | [] => []
  | s0 :: _ =>
    match availableServers servers health with
    | [] => s0.address
    | a :: rest =>
      let best := rest.foldl (fun m p => if m < p.2 then p.2 else m) a.2
      match (a :: rest).find? (fun p => p.2 = best) with
      | some p => p.1
      | none => []

/-!
RunningStats, from interface/IMetrics.h lines 14-47: Welford's online
algorithm over double accumulators, embedded exactly over ℚ.  The min/max
sentinels are the exact values of std::numeric_limits double max() and
lowest().
-/

/-- Largest finite double, exactly. -/
def DBL_MAX_Q : ℚ := 2 ^ 1024 - 2 ^ 971

/-- RunningStats accumulator state. -/
structure RunningStats where
  count : ℚ
  mean : ℚ
  m2 : ℚ
  min : ℚ
  max : ℚ
deriving DecidableEq, Repr

/-- Freshly constructed accumulator: count, mean and M2 zero, min at
numeric_limits max, max at numeric_limits lowest. -/
def RunningStats.init : RunningStats :=
  { count := 0, mean := 0, m2 := 0, min := DBL_MAX_Q, max := -DBL_MAX_Q }

/-- RunningStats::update: count += 1; delta = x - mean; mean += delta/count;
delta2 = x - mean_new; m2 += delta * delta2; min/max folded in. -/
def RunningStats.update (s : RunningStats) (value : ℚ) : RunningStats :=
  let count := s.count + 1
  let delta := value - s.mean
  let mean := s.mean + delta / count
  let delta2 := value - mean
  { count := count, mean := mean, m2 := s.m2 + delta * delta2,
    min := Min.min s.min value, max := Max.max s.max value }

/-- RunningStats::variance: m2 / (count - 1) when count > 1, else 0.
RunningStats::stddev is its square root; since square root is injective on
nonnegative reals, claims about stddev are settled through the variance. -/
def RunningStats.variance (s : RunningStats) : ℚ :=
  if 1 < s.count then s.m2 / (s.count - 1) else 0

/-- Feed a list of values through the accumulator. -/
def RunningStats.ofList (values : List ℚ) : RunningStats :=
  values.foldl RunningStats.update RunningStats.init

/-!
Helper lemmas about the cache embedding.
-/

/-- Entries surviving the expiry sweep are not expired at the lookup. -/
theorem lookupKey_cleanupEntries_not_expired {now : Nat} {key : List Char}
    {l : List (List Char × CacheEntry)} {e : CacheEntry}
    (h : lookupKey key (cleanupEntries now l) = some e) : ¬ e.expire_time ≤ now := by
  induction l with
  | nil => simp [cleanupEntries, lookupKey] at h
  | cons p rest ih =>
    obtain ⟨k0, e0⟩ := p
    by_cases hex : e0.expire_time ≤ now
    · exact ih (by simpa [cleanupEntries, hex] using h)
    · by_cases hk : k0 = key
      · have he : e0 = e := by simpa [cleanupEntries, hex, lookupKey, hk] using h
        exact he ▸ hex
      · exact ih (by simpa [cleanupEntries, hex, lookupKey, hk] using h)

/-- The expiry sweep never lengthens the entry list. -/
theorem length_cleanupEntries_le (now : Nat) (l : List (List Char × CacheEntry)) :
    (cleanupEntries now l).length ≤ l.length := by
  induction l with
  | nil => simp [cleanupEntries]
  | cons p rest ih =>
    obtain ⟨k0, e0⟩ := p
    by_cases hex : e0.expire_time ≤ now <;> simp [cleanupEntries, hex] <;> omega

/-- Key removal never lengthens the entry list. -/
theorem length_removeKey_le (key : List Char) (l : List (List Char × CacheEntry)) :
    (removeKey key l).length ≤ l.length := by
  induction l with
  | nil => simp [removeKey]
  | cons p rest ih =>
    obtain ⟨k0, e0⟩ := p
    by_cases hk : k0 = key <;> simp [removeKey, hk] <;> omega

/-- Removing a key that is present strictly shortens the entry list. -/
theorem length_removeKey_lt {key : List Char} {l : List (List Char × CacheEntry)}
    {e : CacheEntry} (h : lookupKey key l = some e) :
    (removeKey key l).length < l.length := by
  induction l with
  | nil => simp [lookupKey] at h
  | cons p rest ih =>
    obtain ⟨k0, e0⟩ := p
    by_cases hk : k0 = key
    · have := length_removeKey_le key rest
      simp [removeKey, hk]
      omega
    · have := ih (by simpa [lookupKey, hk] using h)
      simp [removeKey, hk]
      omega

/-- A key absent from the raw list resolves to none. -/
theorem lookupKey_eq_none_of_not_mem {key : List Char}
    {l : List (List Char × CacheEntry)} (h : key ∉ l.map Prod.fst) :
    lookupKey key l = none := by
  induction l with
  | nil => simp [lookupKey]
  | cons p rest ih =>
    obtain ⟨k0, e0⟩ := p
    simp only [List.map_cons, List.mem_cons, not_or] at h
    rw [lookupKey, if_neg (fun hc => h.1 hc.symm)]
    exact ih h.2

/-- The keys surviving the sweep are among the original keys. -/
theorem mem_keys_cleanupEntries {now : Nat} {a : List Char}
    {l : List (List Char × CacheEntry)}
    (h : a ∈ (cleanupEntries now l).map Prod.fst) : a ∈ l.map Prod.fst := by
  induction l with
  | nil => simpa [cleanupEntries] using h
  | cons p rest ih =>
    obtain ⟨k0, e0⟩ := p
    by_cases hex : e0.expire_time ≤ now
    · rw [cleanupEntries, if_pos hex] at h
      exact List.mem_cons_of_mem _ (ih h)
    · rw [cleanupEntries, if_neg hex] at h
      simp only [List.map_cons, List.mem_cons] at h ⊢
      rcases h with h | h
      · exact Or.inl h
      · exact Or.inr (ih h)

/-- In a duplicate-free entry list, sweeping removes an expired key for
good: the subsequent lookup misses. -/
theorem lookupKey_cleanupEntries_of_expired {now : Nat} {key : List Char}
    {l : List (List Char × CacheEntry)} {e : CacheEntry}
    (hnd : (l.map Prod.fst).Nodup) (hfind : lookupKey key l = some e)
    (hexp : e.expire_time ≤ now) :
    lookupKey key (cleanupEntries now l) = none := by
  induction l with
  | nil => simp [lookupKey] at hfind
  | cons p rest ih =>
    obtain ⟨k0, e0⟩ := p
    simp only [List.map_cons, List.nodup_cons] at hnd
    by_cases hk : k0 = key
    · have he0 : e0 = e := by simpa [lookupKey, hk] using hfind
      subst he0 hk
      simp [cleanupEntries, hexp]
      apply lookupKey_eq_none_of_not_mem
      intro hmem
      exact hnd.1 (mem_keys_cleanupEntries hmem)
    · have hfind2 : lookupKey key rest = some e := by simpa [lookupKey, hk] using hfind
      by_cases hex0 : e0.expire_time ≤ now
      · simpa [cleanupEntries, hex0] using ih hnd.2 hfind2
      · simpa [cleanupEntries, hex0, lookupKey, hk] using ih hnd.2 hfind2

/-- C5.  For every cache get(hostname) at time now: first all entries with
expires_at ≤ now are removed; then a present, unexpired key is promoted to
MRU with hits incremented and its address sequence returned; a present but
expired entry is evicted with misses incremented and the call is a miss; an
absent key increments misses and is a miss; and an entry with
expires_at ≤ now is never returned as a hit.  The Nodup hypothesis is the
std::unordered_map key-uniqueness invariant. -/
theorem c5_cache_get_expiry_spec (c : LRUCache) (hostname : List Char) (now : Nat)
    (hnd : (c.entries.map Prod.fst).Nodup) :
    (∀ e, lookupKey hostname (cleanupEntries now c.entries) = some e →
        ¬ e.expire_time ≤ now ∧
        c.get hostname now =
          (some e.ips,
           { c with
             entries := (hostname, e) :: removeKey hostname (cleanupEntries now c.entries),
             hits := c.hits + 1 }))
    ∧ (lookupKey hostname (cleanupEntries now c.entries) = none →
        c.get hostname now =
          (none, { c with
                   entries := cleanupEntries now c.entries,
                   misses := c.misses + 1 }))
    ∧ (∀ e, lookupKey hostname c.entries = some e → e.expire_time ≤ now →
        c.get hostname now =
          (none, { c with
                   entries := cleanupEntries now c.entries,
                   misses := c.misses + 1 })
        ∧ lookupKey hostname ((c.get hostname now).2.entries) = none)
    ∧ (∀ ips c2, c.get hostname now = (some ips, c2) →
        ∃ e, lookupKey hostname (cleanupEntries now c.entries) = some e
          ∧ ¬ e.expire_time ≤ now ∧ ips = e.ips) := by
  refine ⟨?_, ?_, ?_, ?_⟩
  · intro e he
    have hne := lookupKey_cleanupEntries_not_expired he
    refine ⟨hne, ?_⟩
    simp only [LRUCache.get, he, if_neg hne]
  · intro hnone
    simp only [LRUCache.get, hnone]
  · intro e he hexp
    have h0 := lookupKey_cleanupEntries_of_expired hnd he hexp
    refine ⟨?_, ?_⟩
    · simp only [LRUCache.get, h0]
    · simp only [LRUCache.get, h0]
  · intro ips c2 hres
    cases hl : lookupKey hostname (cleanupEntries now c.entries) with
    | none =>
      simp only [LRUCache.get, hl] at hres
      have hcontr := congrArg Prod.fst hres
      simp at hcontr
    | some e =>
      have hne := lookupKey_cleanupEntries_not_expired hl
      simp only [LRUCache.get, hl, if_neg hne] at hres
      have hfst : some e.ips = some ips := congrArg Prod.fst hres
      exact ⟨e, rfl, hne, (Option.some.inj hfst).symm⟩

/-- Witness for C5: a cache holding a live entry for "a" and an expired one
for "b"; at now = 20 the get on "a" hits, promotes and counts the hit, with
the expired "b" swept away. -/
theorem c5_cache_get_expiry_spec_witness :
    ¬ ({ ips := [], expire_time := 50 } : CacheEntry).expire_time ≤ 20 ∧
    LRUCache.get
      { max_size := 2, ttl := 100,
        entries := [("a".toList, { ips := [], expire_time := 50 }),
                    ("b".toList, { ips := [], expire_time := 10 })],
        hits := 0, misses := 0 } "a".toList 20 =
      (some [],
       { max_size := 2, ttl := 100,
         entries := [("a".toList, { ips := [], expire_time := 50 })],
         hits := 1, misses := 0 }) := by
  have h :=
    (c5_cache_get_expiry_spec
      { max_size := 2, ttl := 100,
        entries := [("a".toList, { ips := [], expire_time := 50 }),
                    ("b".toList, { ips := [], expire_time := 10 })],
        hits := 0, misses := 0 } "a".toList 20 (by decide)).1
      { ips := [], expire_time := 50 } (by decide)
  exact ⟨h.1, h.2.trans (by decide)⟩

/-- One cache operation keeps the size within a positive capacity. -/
theorem applyCacheOp_preserves {maxs : Nat} (hmax : 1 ≤ maxs) (c : LRUCache)
    (op : CacheOp) (hsz : c.max_size = maxs) (hlen : c.entries.length ≤ maxs) :
    (applyCacheOp c op).max_size = maxs ∧ (applyCacheOp c op).entries.length ≤ maxs := by
  cases op with
  | get hostname now =>
    have hcl := length_cleanupEntries_le now c.entries
    cases hl : lookupKey hostname (cleanupEntries now c.entries) with
    | none => simp only [applyCacheOp, LRUCache.get, hl]; exact ⟨hsz, by omega⟩
    | some e =>
      have hne := lookupKey_cleanupEntries_not_expired hl
      have hrm := length_removeKey_lt hl
      simp only [applyCacheOp, LRUCache.get, hl, if_neg hne]
      refine ⟨hsz, ?_⟩
      simp only [List.length_cons]
      omega
  | put hostname ips now =>
    cases hl : lookupKey hostname c.entries with
    | some e =>
      have hrm := length_removeKey_lt hl
      simp only [applyCacheOp, LRUCache.update, hl, List.length_cons]
      exact ⟨hsz, by omega⟩
    | none =>
      by_cases hfull : c.max_size ≤ c.entries.length
      · simp only [applyCacheOp, LRUCache.update, hl, if_pos hfull, List.length_cons,
          List.length_dropLast]
        refine ⟨hsz, ?_⟩
        omega
      · simp only [applyCacheOp, LRUCache.update, hl, if_neg hfull, List.length_cons]
        refine ⟨hsz, ?_⟩
        omega
  | remove hostname =>
    have := length_removeKey_le hostname c.entries
    simp only [applyCacheOp, LRUCache.removeEntry]
    exact ⟨hsz, by omega⟩
  | clear =>
    simp only [applyCacheOp, LRUCache.clearAll, List.length_nil]
    exact ⟨hsz, by omega⟩

/-- Folding operations preserves the size bound. -/
theorem foldl_cacheOps_preserves {maxs : Nat} (hmax : 1 ≤ maxs) :
    ∀ (ops : List CacheOp) (c : LRUCache), c.max_size = maxs →
      c.entries.length ≤ maxs →
      (ops.foldl applyCacheOp c).max_size = maxs ∧
      (ops.foldl applyCacheOp c).entries.length ≤ maxs := by
  intro ops
  induction ops with
  | nil => intro c hsz hlen; exact ⟨hsz, hlen⟩
  | cons op rest ih =>
    intro c hsz hlen
    have hstep := applyCacheOp_preserves hmax c op hsz hlen
    exact ih (applyCacheOp c op) hstep.1 hstep.2

/-- C6 (amended).  For every sequence of cache operations starting from an
empty cache of positive capacity max_size, the entry count never exceeds
max_size; and a put of an absent key into a full cache first drops the LRU
tail before inserting at MRU.  (With max_size = 0 the code still inserts
one entry, see the counterexample.) -/
theorem c6_cache_size_bounded (maxs ttl : Nat) (ops : List CacheOp) (hmax : 1 ≤ maxs) :
    (runCacheOps maxs ttl ops).entries.length ≤ maxs
    ∧ (∀ (c : LRUCache) (hostname : List Char) (ips : List (List Char)) (now : Nat),
        lookupKey hostname c.entries = none → c.max_size ≤ c.entries.length →
        (c.update hostname ips now).entries =
          (hostname, { ips := ips, expire_time := now + c.ttl }) :: c.entries.dropLast) := by
  constructor
  · exact (foldl_cacheOps_preserves hmax ops (LRUCache.empty maxs ttl) rfl (by simp [LRUCache.empty])).2
  · intro c hostname ips now hl hfull
    simp only [LRUCache.update, hl, if_pos hfull]

/-- Counterexample for C6 as stated: with capacity max_size = 0 a single
put still inserts an entry, so the size exceeds max_size. -/
theorem c6_cache_size_counterexample :
    ¬ ((runCacheOps 0 5 [CacheOp.put "a".toList [] 0]).entries.length ≤ 0) := by decide

/-- Witness for C6: capacity 2, puts for a, b, c (scenario S7); the bound
holds. -/
theorem c6_cache_size_bounded_witness :
    (runCacheOps 2 5 [CacheOp.put "a".toList [] 0, CacheOp.put "b".toList [] 0,
                      CacheOp.put "c".toList [] 0]).entries.length ≤ 2 :=
  (c6_cache_size_bounded 2 5 [CacheOp.put "a".toList [] 0, CacheOp.put "b".toList [] 0,
                              CacheOp.put "c".toList [] 0] (by decide)).1

/-- A label passes validation exactly when it is nonempty, at most 63
characters, starts and ends alphanumeric, and holds only alphanumerics and
hyphens. -/
theorem isValidHostnameLabel_iff (l : List Char) :
    isValidHostnameLabel l = true ↔
      l ≠ [] ∧ l.length ≤ 63 ∧ l.headI.isAlphanum = true
        ∧ (l.getLastD 'a').isAlphanum = true
        ∧ ∀ ch ∈ l, ch.isAlphanum = true ∨ ch = '-' := by
  cases l with
  | nil => simp [isValidHostnameLabel]
  | cons c rest =>
    simp only [isValidHostnameLabel, List.headI]
    constructor
    · intro h
      split_ifs at h with h1 h2
      push_neg at h2
      refine ⟨List.cons_ne_nil c rest, by omega, h2.1, h2.2, ?_⟩
      intro ch hch
      have := List.all_eq_true.mp h ch hch
      simpa [Bool.or_eq_true, decide_eq_true_eq] using this
    · rintro ⟨-, hlen, hhead, hlast, hall⟩
      rw [if_neg (by omega), if_neg (by push_neg; exact ⟨hhead, hlast⟩)]
      rw [List.all_eq_true]
      intro ch hch
      simpa [Bool.or_eq_true, decide_eq_true_eq] using hall ch hch

/-- C7.  On an initialized resolver, a hostname failing validation is
rejected with BadName through the user callback alone: the state (cache,
metrics) is unchanged and the trace holds exactly that callback — no cache
probe, no strategy dispatch, no recordQuery, no recordCacheMiss.  The
second conjunct characterises validation as the claim words it, over the
getline label split. -/
theorem c7_badname_rejection (st : ResolverState) (hostname : List Char) (now : Nat)
    (hinit : st.initialized = true) (hbad : isValidHostname hostname = false) :
    DNSResolver.resolve st hostname now =
      (st, [Effect.cbInvoke { status := ARES_EBADNAME, hostname := hostname,
                              ip_addresses := [], resolution_time := 0, from_cache := false }])
    ∧ (∀ h2 : List Char, isValidHostname h2 = true ↔
        (h2 ≠ [] ∧ h2.length ≤ 253 ∧ ∀ l ∈ hostLabels h2,
          l ≠ [] ∧ l.length ≤ 63 ∧ l.headI.isAlphanum = true
            ∧ (l.getLastD 'a').isAlphanum = true
            ∧ ∀ ch ∈ l, ch.isAlphanum = true ∨ ch = '-')) := by
  constructor
  · simp only [DNSResolver.resolve, hinit, hbad]
    simp
  · intro h2
    simp only [isValidHostname]
    constructor
    · intro hv
      split_ifs at hv with h1
      push_neg at h1
      refine ⟨by simpa using h1.1, by omega, ?_⟩
      intro l hl
      exact (isValidHostnameLabel_iff l).mp (List.all_eq_true.mp hv l hl)
    · rintro ⟨hne, hlen, hall⟩
      rw [if_neg (by push_neg; exact ⟨by simpa using hne, by omega⟩)]
      rw [List.all_eq_true]
      intro l hl
      exact (isValidHostnameLabel_iff l).mpr (hall l hl)

/-- Witness for C7: scenario S8, resolve("-bad.test.") on an initialized
resolver callbacks BadName with no other effect. -/
theorem c7_badname_rejection_witness :
    DNSResolver.resolve
      { initialized := true,
        config := { servers := [{ address := "8.8.8.8".toList, port := 53, weight := 1,
                                  timeout_ms := 2000, enabled := true }],
                    cache := { enabled := true, ttl := 300000, max_size := 10000 },
                    retry := { max_attempts := 3, base_delay_ms := 100, max_delay_ms := 1000 },
                    query_timeout_ms := 5000, max_concurrent_queries := 100,
                    ipv6_enabled := false, server_error_threshold := 10 },
        active_contexts := 0, cache := LRUCache.empty 10000 300000,
        metrics := Metrics.empty } "-bad.test.".toList 0 =
      ({ initialized := true,
         config := { servers := [{ address := "8.8.8.8".toList, port := 53, weight := 1,
                                   timeout_ms := 2000, enabled := true }],
                     cache := { enabled := true, ttl := 300000, max_size := 10000 },
                     retry := { max_attempts := 3, base_delay_ms := 100, max_delay_ms := 1000 },
                     query_timeout_ms := 5000, max_concurrent_queries := 100,
                     ipv6_enabled := false, server_error_threshold := 10 },
         active_contexts := 0, cache := LRUCache.empty 10000 300000,
         metrics := Metrics.empty },
       [Effect.cbInvoke { status := ARES_EBADNAME, hostname := "-bad.test.".toList,
                          ip_addresses := [], resolution_time := 0, from_cache := false }]) :=
  (c7_badname_rejection _ "-bad.test.".toList 0 rfl (by decide)).1

/-- The dot-split is never the empty list of pieces. -/
theorem splitDots_ne_nil (l : List Char) : splitDots l ≠ [] := by
  cases l with
  | nil => simp [splitDots]
  | cons c cs =>
    simp only [splitDots]
    by_cases hc : c = '.'
    · simp [hc]
    · rw [if_neg hc]
      cases h : splitDots cs with
      | nil => simp
      | cons t ts => simp

/-- Appending a final dot appends a final empty piece to the dot-split. -/
theorem splitDots_append_dot (t : List Char) :
    splitDots (t ++ ['.']) = splitDots t ++ [[]] := by
  induction t with
  | nil => simp [splitDots]
  | cons c cs ih =>
    by_cases hc : c = '.'
    · simp only [List.cons_append, splitDots, if_pos hc]
      show [] :: splitDots (cs ++ ['.']) = [] :: (splitDots cs ++ [[]])
      rw [ih]
    · simp only [List.cons_append, splitDots, if_neg hc]
      cases h : splitDots cs with
      | nil => exact absurd h (splitDots_ne_nil cs)
      | cons t0 ts =>
        show (match splitDots (cs ++ ['.']) with
              | t :: ts => (c :: t) :: ts
              | [] => [[c]]) = (c :: t0) :: (ts ++ [[]])
        rw [ih, h]
        simp

/-- When the input is nonempty and does not end with '.', the last piece of
the dot-split is nonempty. -/
theorem splitDots_getLast_ne_nil :
    ∀ (t : List Char), t ≠ [] → t.getLast? ≠ some '.' →
      (splitDots t).getLast? ≠ some [] := by
  intro t
  induction t with
  | nil => intro h; exact absurd rfl h
  | cons c cs ih =>
    intro _ hlast
    cases cs with
    | nil =>
      have hc : ¬ c = '.' := by
        intro hc
        exact hlast (by simp [hc])
      simp [splitDots, hc]
    | cons c1 cs1 =>
      have hlast2 : (c1 :: cs1).getLast? ≠ some '.' := by
        simpa [List.getLast?_cons_cons] using hlast
      have ihcs := ih (List.cons_ne_nil c1 cs1) hlast2
      have hstep : splitDots (c :: c1 :: cs1) =
          if c = '.' then [] :: splitDots (c1 :: cs1)
          else match splitDots (c1 :: cs1) with
               | t :: ts => (c :: t) :: ts
               | [] => [[c]] := rfl
      by_cases hc : c = '.'
      · rw [hstep, if_pos hc]
        cases hsp : splitDots (c1 :: cs1) with
        | nil => exact absurd hsp (splitDots_ne_nil _)
        | cons t0 ts =>
          rw [hsp] at ihcs
          simpa [List.getLast?_cons_cons] using ihcs
      · rw [hstep, if_neg hc]
        cases hsp : splitDots (c1 :: cs1) with
        | nil => exact absurd hsp (splitDots_ne_nil _)
        | cons t0 ts =>
          rw [hsp] at ihcs
          show ((c :: t0) :: ts).getLast? ≠ some []
          cases ts with
          | nil => simp
          | cons t1 ts1 =>
            simpa [List.getLast?_cons_cons] using ihcs

/-- Appending a single trailing dot to a name that does not already end in
'.' leaves the getline label split unchanged. -/
theorem hostLabels_append_dot (t : List Char) (h1 : t ≠ [])
    (h2 : t.getLast? ≠ some '.') : hostLabels (t ++ ['.']) = hostLabels t := by
  have hne : t ++ ['.'] ≠ [] := by simp
  have hsplit := splitDots_append_dot t
  have hlast : (splitDots (t ++ ['.'])).getLast? = some [] := by
    rw [hsplit]
    exact List.getLast?_concat _
  have hLHS : hostLabels (t ++ ['.']) = splitDots t := by
    rw [hostLabels.eq_def]
    cases ha : t ++ ['.'] with
    | nil => exact absurd ha hne
    | cons x xs =>
      rw [← ha]
      simp only [hsplit]
      rw [List.getLast?_concat, if_pos rfl, List.dropLast_concat]
  have hRHS : hostLabels t = splitDots t := by
    rw [hostLabels.eq_def]
    cases ha : t with
    | nil => exact absurd ha h1
    | cons x xs =>
      rw [← ha]
      simp only [if_neg (splitDots_getLast_ne_nil t h1 h2)]
  rw [hLHS, hRHS]

/-- C10 (amended).  For a hostname ending in exactly one '.', validation
accepts it iff the name with the dot removed is valid AND the full name,
dot included, still fits the 253-character bound: the trailing empty label
is indeed not produced by the getline split, but the length test runs on
the dotted form.  (The plain iff of the claim fails only at the length
boundary, see the counterexample.) -/
theorem c10_trailing_dot (s : List Char) (hne : s ≠ [])
    (hdot : s.getLast? = some '.') (hprev : s.dropLast.getLast? ≠ some '.') :
    isValidHostname s = true ↔
      (isValidHostname s.dropLast = true ∧ s.length ≤ 253) := by
  have hlastc : s.getLast hne = '.' := by
    have := List.getLast?_eq_getLast s hne
    rw [hdot] at this
    exact (Option.some.inj this).symm
  have hs : s.dropLast ++ ['.'] = s := by
    have := List.dropLast_append_getLast hne
    rwa [hlastc] at this
  by_cases ht : s.dropLast = []
  · have hs1 : s = ['.'] := by rw [← hs, ht]; rfl
    rw [hs1]
    decide
  · have hlab0 := hostLabels_append_dot s.dropLast ht hprev
    rw [hs] at hlab0
    have hlen : s.length = s.dropLast.length + 1 := by
      have h1 := List.length_dropLast s
      have h2 : 0 < s.length := List.length_pos.mpr hne
      omega
    constructor
    · intro hv
      rw [isValidHostname] at hv
      split_ifs at hv with hcond
      push_neg at hcond
      have hc2 : ¬ (s.dropLast.isEmpty = true ∨ 253 < s.dropLast.length) := by
        push_neg
        exact ⟨by simpa using ht, by omega⟩
      refine ⟨?_, by omega⟩
      rw [isValidHostname, if_neg hc2, ← hlab0]
      exact hv
    · rintro ⟨hvd, h253⟩
      have hc1 : ¬ (s.isEmpty = true ∨ 253 < s.length) := by
        push_neg
        exact ⟨by simpa using hne, by omega⟩
      rw [isValidHostname, if_neg hc1, hlab0]
      rw [isValidHostname] at hvd
      split_ifs at hvd with hcond2
      exact hvd

set_option maxRecDepth 8000 in
/-- Counterexample for C10 as stated: a valid 253-character name whose
fully-qualified (trailing-dot) form is 254 characters long; the code
rejects the dotted form on the total-length check although the name minus
the dot is valid. -/
theorem c10_trailing_dot_counterexample :
    isValidHostname
      ((List.replicate 63 'a' ++ '.' :: (List.replicate 63 'a' ++ '.' ::
        (List.replicate 63 'a' ++ '.' :: List.replicate 61 'a'))) ++ ['.']) = false
    ∧ isValidHostname
        (List.replicate 63 'a' ++ '.' :: (List.replicate 63 'a' ++ '.' ::
          (List.replicate 63 'a' ++ '.' :: List.replicate 61 'a'))) = true
    ∧ ((List.replicate 63 'a' ++ '.' :: (List.replicate 63 'a' ++ '.' ::
        (List.replicate 63 'a' ++ '.' :: List.replicate 61 'a'))) ++ ['.']).getLast?
        = some '.'
    ∧ ((List.replicate 63 'a' ++ '.' :: (List.replicate 63 'a' ++ '.' ::
        (List.replicate 63 'a' ++ '.' :: List.replicate 61 'a'))) ++ ['.']).dropLast
        = List.replicate 63 'a' ++ '.' :: (List.replicate 63 'a' ++ '.' ::
            (List.replicate 63 'a' ++ '.' :: List.replicate 61 'a')) := by
  decide

/-- Witness for C10: the fully-qualified "example.test." is accepted. -/
theorem c10_trailing_dot_witness : isValidHostname "example.test.".toList = true :=
  (c10_trailing_dot "example.test.".toList (by decide) (by decide) (by decide)).mpr
    (by decide)

/-!
Helper lemmas about the resolver result handler and the metrics error map.
-/

/-- Bumping an error kind makes it findable with a count one higher. -/
theorem find_bumpErrorStat (ty detail : List Char) :
    ∀ (l : List (List Char × ErrorStat)),
      (bumpErrorStat ty detail l).find? (fun p => p.1 = ty) =
        some (ty, { count := (match l.find? (fun p => p.1 = ty) with
                              | some p => p.2.count
                              | none => 0) + 1,
                    last_detail := detail }) := by
  intro l
  induction l with
  | nil => simp [bumpErrorStat, List.find?]
  | cons p rest ih =>
    obtain ⟨t, s⟩ := p
    by_cases ht : t = ty
    · subst ht
      simp [bumpErrorStat, List.find?]
    · simp [bumpErrorStat, List.find?, ht, ih]

/-- recordError increments the count of its own error kind. -/
theorem errorCount_recordError (m : Metrics) (ty detail : List Char) :
    errorCount (m.recordError ty detail) ty = errorCount m ty + 1 := by
  simp only [errorCount, Metrics.recordError, find_bumpErrorStat]
  cases h : m.error_stats.find? (fun p => p.1 = ty) <;> simp [h]

/-- One ServerFail attempt under the retry ceiling: the handler records the
failed query, the resolution_failure error and the retry, sleeps the
exponential-backoff delay and re-dispatches with the incremented count. -/
theorem hqr_servfail_step (st : ResolverState) (hostname : List Char) (dur : Int)
    (rc : Nat) (now : Nat) (hrc : rc < st.config.retry.max_attempts) :
    DNSResolver.handleQueryResult st rc
      { status := ARES_ESERVFAIL, hostname := hostname, ip_addresses := [],
        resolution_time := dur, from_cache := false } now =
    { state :=
        { st with
          cache := (st.cache.get hostname now).2,
          metrics :=
            { total_queries := st.metrics.total_queries + 1,
              successful_queries := st.metrics.successful_queries,
              failed_queries := st.metrics.failed_queries + 1,
              cache_hits := st.metrics.cache_hits,
              cache_misses := st.metrics.cache_misses,
              total_retries := st.metrics.total_retries + 1,
              error_stats :=
                bumpErrorStat "resolution_failure".toList (aresStrerror ARES_ESERVFAIL)
                  st.metrics.error_stats } },
      effects := [Effect.cacheProbe hostname,
                  Effect.recordQuery hostname dur false,
                  Effect.recordError "resolution_failure".toList (aresStrerror ARES_ESERVFAIL),
                  Effect.recordRetry hostname (rc + 1),
                  Effect.sleep (min ((st.config.retry.base_delay_ms * (1 <<< rc)) % 2 ^ 32)
                                    st.config.retry.max_delay_ms),
                  Effect.dispatchQuery hostname (rc + 1)],
      redispatch := some (rc + 1,
        min ((st.config.retry.base_delay_ms * (1 <<< rc)) % 2 ^ 32)
            st.config.retry.max_delay_ms) } := by
  simp only [DNSResolver.handleQueryResult]
  rw [if_neg (by decide), if_pos ⟨by decide, by decide, by decide, hrc⟩]
  rfl

/-- One successful attempt with addresses: the handler records the
successful query, refreshes the cache, publishes the address change when
the probed old addresses differ, then invokes the callback and publishes
completion; no re-dispatch. -/
theorem hqr_success_step (st : ResolverState) (hostname : List Char) (dur : Int)
    (ips : List (List Char)) (fc : Bool) (rc : Nat) (now : Nat) (hips : ips ≠ []) :
    DNSResolver.handleQueryResult st rc
      { status := ARES_SUCCESS, hostname := hostname, ip_addresses := ips,
        resolution_time := dur, from_cache := fc } now =
    { state :=
        { st with
          cache := ((st.cache.get hostname now).2).update hostname ips now,
          metrics :=
            { total_queries := st.metrics.total_queries + 1,
              successful_queries := st.metrics.successful_queries + 1,
              failed_queries := st.metrics.failed_queries,
              cache_hits := st.metrics.cache_hits,
              cache_misses := st.metrics.cache_misses,
              total_retries := st.metrics.total_retries,
              error_stats := st.metrics.error_stats } },
      effects := [Effect.cacheProbe hostname,
                  Effect.recordQuery hostname dur true,
                  Effect.cacheUpdate hostname ips] ++
                 (if (match (st.cache.get hostname now).1 with
                      | some i => i
                      | none => []) ≠ ips then
                    [Effect.publishAddressChanged
                      (mkAddressEvent st.config hostname
                        (match (st.cache.get hostname now).1 with
                         | some i => i
                         | none => []) ips now)]
                  else []) ++
                 [Effect.cbInvoke { status := ARES_SUCCESS, hostname := hostname,
                                    ip_addresses := ips, resolution_time := dur,
                                    from_cache := fc },
                  Effect.publishQueryCompleted hostname ips true],
      redispatch := none } := by
  simp only [DNSResolver.handleQueryResult]
  rw [if_pos ⟨trivial, hips⟩]
  rfl

/-- C1 (amended).  A strategy failure that is neither NoData nor NotFound,
delivered while retry_count < max_attempts, records one retry and is
re-dispatched with delay = min((base_delay_ms * 2^retry_count) mod 2^32,
max_delay_ms) — the product is computed in 32-bit unsigned arithmetic and
can wrap — and the user callback is not invoked; a NoData or NotFound
result is never re-dispatched: the callback receives it unchanged and the
retry total stays put. -/
theorem c1_retry_backoff (st : ResolverState) (retry_count : Nat)
    (result : ResolveResult) (now : Nat) (hvc : validateConfig st.config = true) :
    (result.status ≠ ARES_SUCCESS → result.status ≠ ARES_ENODATA →
     result.status ≠ ARES_ENOTFOUND → retry_count < st.config.retry.max_attempts →
       (DNSResolver.handleQueryResult st retry_count result now).redispatch =
         some (retry_count + 1,
               min ((st.config.retry.base_delay_ms * 2 ^ retry_count) % 2 ^ 32)
                   st.config.retry.max_delay_ms)
       ∧ (DNSResolver.handleQueryResult st retry_count result now).state.metrics.total_retries
           = st.metrics.total_retries + 1
       ∧ Effect.recordRetry result.hostname (retry_count + 1)
           ∈ (DNSResolver.handleQueryResult st retry_count result now).effects
       ∧ countCbInvoke (DNSResolver.handleQueryResult st retry_count result now).effects = 0)
    ∧ ((result.status = ARES_ENODATA ∨ result.status = ARES_ENOTFOUND) →
       (DNSResolver.handleQueryResult st retry_count result now).redispatch = none
       ∧ Effect.cbInvoke result ∈ (DNSResolver.handleQueryResult st retry_count result now).effects
       ∧ (DNSResolver.handleQueryResult st retry_count result now).state.metrics.total_retries
           = st.metrics.total_retries) := by
  constructor
  · intro h0 h1 h4 hrc
    have hsucc : ¬ (result.status = ARES_SUCCESS ∧ result.ip_addresses ≠ []) := by
      intro hc
      exact h0 hc.1
    simp only [DNSResolver.handleQueryResult]
    rw [if_neg hsucc, if_pos ⟨h0, h1, h4, hrc⟩]
    refine ⟨?_, ?_, ?_, ?_⟩
    · rw [Nat.one_shiftLeft]
      simp
    · simp [h0, Metrics.recordRetry, Metrics.recordQuery, Metrics.recordError]
    · simp
    · simp [h0, countCbInvoke, List.countP_cons]
  · intro hnd
    have h0 : result.status ≠ ARES_SUCCESS := by
      rcases hnd with h | h <;> rw [h] <;> decide
    have hsucc : ¬ (result.status = ARES_SUCCESS ∧ result.ip_addresses ≠ []) := by
      intro hc
      exact h0 hc.1
    have hretry : ¬ (result.status ≠ ARES_SUCCESS ∧ result.status ≠ ARES_ENODATA
        ∧ result.status ≠ ARES_ENOTFOUND ∧ retry_count < st.config.retry.max_attempts) := by
      rintro ⟨-, hb, hc, -⟩
      rcases hnd with h | h
      · exact hb h
      · exact hc h
    simp only [DNSResolver.handleQueryResult]
    rw [if_neg hsucc, if_neg hretry]
    refine ⟨rfl, ?_, ?_⟩
    · simp
    · simp [h0, Metrics.recordQuery, Metrics.recordError]

/-- Counterexample for C1 as stated: a validated configuration with
base_delay_ms = 2^31 (and matching max_delay_ms); at retry_count = 1 the
32-bit product base * 2^1 wraps to 0 and the scheduled delay is 0, while
min(base * 2^retry_count, max_delay_ms) as claimed is 2^31. -/
theorem c1_retry_backoff_counterexample :
    validateConfig
      { servers := [{ address := "8.8.8.8".toList, port := 53, weight := 1,
                      timeout_ms := 2000, enabled := true }],
        cache := { enabled := true, ttl := 300000, max_size := 10000 },
        retry := { max_attempts := 3, base_delay_ms := 2 ^ 31, max_delay_ms := 2 ^ 31 },
        query_timeout_ms := 5000, max_concurrent_queries := 100,
        ipv6_enabled := false, server_error_threshold := 10 } = true
    ∧ (DNSResolver.handleQueryResult
        { initialized := true,
          config := { servers := [{ address := "8.8.8.8".toList, port := 53, weight := 1,
                                    timeout_ms := 2000, enabled := true }],
                      cache := { enabled := true, ttl := 300000, max_size := 10000 },
                      retry := { max_attempts := 3, base_delay_ms := 2 ^ 31,
                                 max_delay_ms := 2 ^ 31 },
                      query_timeout_ms := 5000, max_concurrent_queries := 100,
                      ipv6_enabled := false, server_error_threshold := 10 },
          active_contexts := 0, cache := LRUCache.empty 10000 300000,
          metrics := Metrics.empty } 1
        { status := ARES_ESERVFAIL, hostname := "x.test".toList, ip_addresses := [],
          resolution_time := 7, from_cache := false } 0).redispatch = some (2, 0)
    ∧ min ((2 : Nat) ^ 31 * 2 ^ 1) ((2 : Nat) ^ 31) = 2 ^ 31
    ∧ (0 : Nat) ≠ 2 ^ 31 := by
  refine ⟨by decide, ?_, by decide, by decide⟩
  decide

/-- Witness for C1: the default retry configuration, base 100 ms, second
attempt (retry_count = 1): re-dispatch after min(200, 1000) = 200 ms. -/
theorem c1_retry_backoff_witness :
    (DNSResolver.handleQueryResult
      { initialized := true,
        config := { servers := [{ address := "8.8.8.8".toList, port := 53, weight := 1,
                                  timeout_ms := 2000, enabled := true }],
                    cache := { enabled := true, ttl := 300000, max_size := 10000 },
                    retry := { max_attempts := 3, base_delay_ms := 100, max_delay_ms := 1000 },
                    query_timeout_ms := 5000, max_concurrent_queries := 100,
                    ipv6_enabled := false, server_error_threshold := 10 },
        active_contexts := 0, cache := LRUCache.empty 10000 300000,
        metrics := Metrics.empty } 1
      { status := ARES_ESERVFAIL, hostname := "x.test".toList, ip_addresses := [],
        resolution_time := 7, from_cache := false } 0).redispatch = some (2, 200) := by
  have h :=
    ((c1_retry_backoff
      { initialized := true,
        config := { servers := [{ address := "8.8.8.8".toList, port := 53, weight := 1,
                                  timeout_ms := 2000, enabled := true }],
                    cache := { enabled := true, ttl := 300000, max_size := 10000 },
                    retry := { max_attempts := 3, base_delay_ms := 100, max_delay_ms := 1000 },
                    query_timeout_ms := 5000, max_concurrent_queries := 100,
                    ipv6_enabled := false, server_error_threshold := 10 },
        active_contexts := 0, cache := LRUCache.empty 10000 300000,
        metrics := Metrics.empty } 1
      { status := ARES_ESERVFAIL, hostname := "x.test".toList, ip_addresses := [],
        resolution_time := 7, from_cache := false } 0 (by decide)).1
      (by decide) (by decide) (by decide) (by decide)).1
  rw [h]
  rfl

/-- C2 (code bug).  DNSResolver::resolve checks
active_contexts_.size() >= max_concurrent_queries, but nothing in the
resolver ever inserts into its own active_contexts_ vector (only
CaresQueryStrategy fills its homonymous member), so the size the admission
check reads never grows: neither resolve nor the result handler touches it,
and in scenario S5 (max_concurrent_queries = 1 and one in-flight
never-completing query) a second resolve does NOT call back Busy — it
probes the cache, records the miss and dispatches a second query. -/
theorem c2_busy_admission_never_fires :
    (∀ (st : ResolverState) (hostname : List Char) (now : Nat),
        ((DNSResolver.resolve st hostname now).1).active_contexts = st.active_contexts)
    ∧ (∀ (st : ResolverState) (rc : Nat) (r : ResolveResult) (now : Nat),
        ((DNSResolver.handleQueryResult st rc r now).state).active_contexts
          = st.active_contexts)
    ∧ (DNSResolver.resolve
        (DNSResolver.resolve
          { initialized := true,
            config := { servers := [{ address := "8.8.8.8".toList, port := 53, weight := 1,
                                      timeout_ms := 2000, enabled := true }],
                        cache := { enabled := true, ttl := 300000, max_size := 10000 },
                        retry := { max_attempts := 3, base_delay_ms := 100,
                                   max_delay_ms := 1000 },
                        query_timeout_ms := 5000, max_concurrent_queries := 1,
                        ipv6_enabled := false, server_error_threshold := 10 },
            active_contexts := 0, cache := LRUCache.empty 10000 300000,
            metrics := Metrics.empty } "a.test".toList 0).1 "a.test".toList 1).2 =
      [Effect.publishQueryStarted "a.test".toList, Effect.cacheProbe "a.test".toList,
       Effect.recordCacheMiss "a.test".toList, Effect.dispatchQuery "a.test".toList 0]
    ∧ countCbInvoke
        (DNSResolver.resolve
          (DNSResolver.resolve
            { initialized := true,
              config := { servers := [{ address := "8.8.8.8".toList, port := 53, weight := 1,
                                        timeout_ms := 2000, enabled := true }],
                          cache := { enabled := true, ttl := 300000, max_size := 10000 },
                          retry := { max_attempts := 3, base_delay_ms := 100,
                                     max_delay_ms := 1000 },
                          query_timeout_ms := 5000, max_concurrent_queries := 1,
                          ipv6_enabled := false, server_error_threshold := 10 },
              active_contexts := 0, cache := LRUCache.empty 10000 300000,
              metrics := Metrics.empty } "a.test".toList 0).1 "a.test".toList 1).2 = 0 := by
  refine ⟨?_, ?_, by decide, by decide⟩
  · intro st hostname now
    simp only [DNSResolver.resolve]
    split_ifs <;> try rfl
    rcases hg : st.cache.get hostname now with ⟨o, c2⟩
    cases o <;> rfl
  · intro st rc r now
    simp only [DNSResolver.handleQueryResult]
    split_ifs <;> rfl

/-- C3 (amended).  On a Success result with a non-empty address list the
handler refreshes the cache, and when the previously cached sequence
(probed at entry; empty on a miss) differs from the new one under ordered
equality it publishes exactly one address_changed event — source
"dns_resolver", ttl from the cache config, is_authoritative false, and
record_type "AAAA" exactly when the FIRST new address contains ':' (the
code inspects new_addresses[0] only) — strictly before the user callback;
when the sequences are equal no address_changed event is published. -/
theorem c3_address_change_event (st : ResolverState) (result : ResolveResult)
    (rc : Nat) (now : Nat) (hsucc : result.status = ARES_SUCCESS)
    (hne : result.ip_addresses ≠ []) :
    (DNSResolver.handleQueryResult st rc result now).state.cache =
      ((st.cache.get result.hostname now).2).update result.hostname result.ip_addresses now
    ∧ ((match (st.cache.get result.hostname now).1 with
        | some i => i
        | none => []) ≠ result.ip_addresses →
        (DNSResolver.handleQueryResult st rc result now).effects =
          [Effect.cacheProbe result.hostname,
           Effect.recordQuery result.hostname result.resolution_time true,
           Effect.cacheUpdate result.hostname result.ip_addresses,
           Effect.publishAddressChanged
             { hostname := result.hostname,
               old_addresses := (match (st.cache.get result.hostname now).1 with
                                 | some i => i
                                 | none => []),
               new_addresses := result.ip_addresses,
               timestamp := now,
               source := "dns_resolver".toList,
               ttl := st.config.cache.ttl,
               record_type := if result.ip_addresses.headI.contains ':'
                              then "AAAA".toList else "A".toList,
               is_authoritative := false },
           Effect.cbInvoke result,
           Effect.publishQueryCompleted result.hostname result.ip_addresses true])
    ∧ ((match (st.cache.get result.hostname now).1 with
        | some i => i
        | none => []) = result.ip_addresses →
        countAddressChanged (DNSResolver.handleQueryResult st rc result now).effects = 0) := by
  obtain ⟨s, hn, ips, dur, fc⟩ := result
  simp only at hsucc hne
  subst hsucc
  rw [hqr_success_step st hn dur ips fc rc now hne]
  refine ⟨rfl, ?_, ?_⟩
  · intro hchanged
    have hchanged2 : (match (st.cache.get hn now).1 with
                      | some i => i
                      | none => []) ≠ ips := hchanged
    rw [if_pos hchanged2]
    rfl
  · intro hsame
    have hsame2 : (match (st.cache.get hn now).1 with
                   | some i => i
                   | none => []) = ips := hsame
    rw [if_neg (not_not_intro hsame2)]
    rfl

/-- Counterexample for C3 as stated: a success whose new addresses are
["1.2.3.4", "::1"] — some address contains ':' so the claim demands
record_type "AAAA" — yet the published event carries "A", because the code
inspects only the first address. -/
theorem c3_address_change_counterexample :
    (∃ a ∈ ["1.2.3.4".toList, "::1".toList], a.contains ':' = true)
    ∧ (DNSResolver.handleQueryResult
        { initialized := true,
          config := { servers := [{ address := "8.8.8.8".toList, port := 53, weight := 1,
                                    timeout_ms := 2000, enabled := true }],
                      cache := { enabled := true, ttl := 300000, max_size := 10000 },
                      retry := { max_attempts := 3, base_delay_ms := 100,
                                 max_delay_ms := 1000 },
                      query_timeout_ms := 5000, max_concurrent_queries := 100,
                      ipv6_enabled := false, server_error_threshold := 10 },
          active_contexts := 0, cache := LRUCache.empty 10000 300000,
          metrics := Metrics.empty } 0
        { status := ARES_SUCCESS, hostname := "x.test".toList,
          ip_addresses := ["1.2.3.4".toList, "::1".toList],
          resolution_time := 5, from_cache := false } 0).effects.filterMap
        (fun e => match e with
                  | Effect.publishAddressChanged ev => some ev.record_type
                  | _ => none) = ["A".toList]
    ∧ "A".toList ≠ "AAAA".toList := by
  refine ⟨by decide, ?_, by decide⟩
  decide

/-- Witness for C3: success of "x.test" with one IPv4 address against an
empty cache (old addresses empty, hence changed): exactly one
address_changed event is published. -/
theorem c3_address_change_event_witness :
    countAddressChanged
      (DNSResolver.handleQueryResult
        { initialized := true,
          config := { servers := [{ address := "8.8.8.8".toList, port := 53, weight := 1,
                                    timeout_ms := 2000, enabled := true }],
                      cache := { enabled := true, ttl := 300000, max_size := 10000 },
                      retry := { max_attempts := 3, base_delay_ms := 100,
                                 max_delay_ms := 1000 },
                      query_timeout_ms := 5000, max_concurrent_queries := 100,
                      ipv6_enabled := false, server_error_threshold := 10 },
          active_contexts := 0, cache := LRUCache.empty 10000 300000,
          metrics := Metrics.empty } 0
        { status := ARES_SUCCESS, hostname := "x.test".toList,
          ip_addresses := ["2.2.2.2".toList],
          resolution_time := 5, from_cache := false } 0).effects = 1 := by
  have h :=
    ((c3_address_change_event
      { initialized := true,
        config := { servers := [{ address := "8.8.8.8".toList, port := 53, weight := 1,
                                  timeout_ms := 2000, enabled := true }],
                    cache := { enabled := true, ttl := 300000, max_size := 10000 },
                    retry := { max_attempts := 3, base_delay_ms := 100,
                               max_delay_ms := 1000 },
                    query_timeout_ms := 5000, max_concurrent_queries := 100,
                    ipv6_enabled := false, server_error_threshold := 10 },
        active_contexts := 0, cache := LRUCache.empty 10000 300000,
        metrics := Metrics.empty }
      { status := ARES_SUCCESS, hostname := "x.test".toList,
        ip_addresses := ["2.2.2.2".toList],
        resolution_time := 5, from_cache := false } 0 0 rfl (by decide)).2.1) (by decide)
  rw [h]
  decide

/-- Driving the handler through k ServerFail attempts followed by one
success accumulates per-attempt metrics: k + 1 total queries, k failed, one
successful, k resolution_failure errors, and one recordQuery effect per
attempt. -/
theorem runAttempts_servfail_then_success (hostname : List Char) (dur : Int)
    (ips : List (List Char)) (now : Nat) (hips : ips ≠ []) :
    ∀ (k : Nat) (st : ResolverState) (rc : Nat),
      rc + k ≤ st.config.retry.max_attempts →
      ((DNSResolver.runAttempts st rc now
          (List.replicate k
            { status := ARES_ESERVFAIL, hostname := hostname, ip_addresses := [],
              resolution_time := dur, from_cache := false } ++
           [{ status := ARES_SUCCESS, hostname := hostname, ip_addresses := ips,
              resolution_time := dur, from_cache := false }])).1.metrics.total_queries
          = st.metrics.total_queries + (k + 1)
       ∧ (DNSResolver.runAttempts st rc now
          (List.replicate k
            { status := ARES_ESERVFAIL, hostname := hostname, ip_addresses := [],
              resolution_time := dur, from_cache := false } ++
           [{ status := ARES_SUCCESS, hostname := hostname, ip_addresses := ips,
              resolution_time := dur, from_cache := false }])).1.metrics.failed_queries
          = st.metrics.failed_queries + k
       ∧ (DNSResolver.runAttempts st rc now
          (List.replicate k
            { status := ARES_ESERVFAIL, hostname := hostname, ip_addresses := [],
              resolution_time := dur, from_cache := false } ++
           [{ status := ARES_SUCCESS, hostname := hostname, ip_addresses := ips,
              resolution_time := dur, from_cache := false }])).1.metrics.successful_queries
          = st.metrics.successful_queries + 1
       ∧ errorCount (DNSResolver.runAttempts st rc now
          (List.replicate k
            { status := ARES_ESERVFAIL, hostname := hostname, ip_addresses := [],
              resolution_time := dur, from_cache := false } ++
           [{ status := ARES_SUCCESS, hostname := hostname, ip_addresses := ips,
              resolution_time := dur, from_cache := false }])).1.metrics
             "resolution_failure".toList
          = errorCount st.metrics "resolution_failure".toList + k
       ∧ countRecordQuery (DNSResolver.runAttempts st rc now
          (List.replicate k
            { status := ARES_ESERVFAIL, hostname := hostname, ip_addresses := [],
              resolution_time := dur, from_cache := false } ++
           [{ status := ARES_SUCCESS, hostname := hostname, ip_addresses := ips,
              resolution_time := dur, from_cache := false }])).2
          = k + 1) := by
  intro k
  induction k with
  | zero =>
    intro st rc hk
    simp only [List.replicate, List.nil_append, DNSResolver.runAttempts,
      hqr_success_step st hostname dur ips false rc now hips]
    refine ⟨by first | rfl | simp, by first | rfl | simp, by first | rfl | simp,
      by first | rfl | simp, ?_⟩
    rw [countRecordQuery]
    by_cases hch : (match (st.cache.get hostname now).1 with
                    | some i => i
                    | none => []) ≠ ips
    · rw [if_pos hch]
      rfl
    · rw [if_neg hch]
      rfl
  | succ k ih =>
    intro st rc hk
    rw [List.replicate_succ, List.cons_append, DNSResolver.runAttempts,
      hqr_servfail_step st hostname dur rc now (by omega)]
    have ihs := ih
      { st with
        cache := (st.cache.get hostname now).2,
        metrics :=
          { total_queries := st.metrics.total_queries + 1,
            successful_queries := st.metrics.successful_queries,
            failed_queries := st.metrics.failed_queries + 1,
            cache_hits := st.metrics.cache_hits,
            cache_misses := st.metrics.cache_misses,
            total_retries := st.metrics.total_retries + 1,
            error_stats :=
              bumpErrorStat "resolution_failure".toList (aresStrerror ARES_ESERVFAIL)
                st.metrics.error_stats } } (rc + 1) (by simp; omega)
    refine ⟨?_, ?_, ?_, ?_, ?_⟩
    · rw [ihs.1]
      simp
      omega
    · rw [ihs.2.1]
      simp
      omega
    · rw [ihs.2.2.1]
    · rw [ihs.2.2.2.1]
      simp only [errorCount, find_bumpErrorStat]
      cases h : st.metrics.error_stats.find? (fun p => p.1 = "resolution_failure".toList) <;>
        simp [h] <;> omega
    · rw [countRecordQuery, List.countP_append]
      have h2 := ihs.2.2.2.2
      rw [countRecordQuery] at h2
      rw [h2]
      simp [List.countP_cons]
      omega

/-- C9.  Every invocation of the result handler records exactly one query
(total_queries counts attempts, not resolve calls); and a resolution that
fails retryably k times before succeeding accumulates k + 1 total queries,
k failed queries with k resolution_failure recordError calls, one
successful query, and one recordQuery effect per attempt. -/
theorem c9_queries_count_attempts (st : ResolverState) (hostname : List Char)
    (dur : Int) (ips : List (List Char)) (now : Nat) (k : Nat)
    (hk : k ≤ st.config.retry.max_attempts) (hips : ips ≠ []) :
    (∀ (st2 : ResolverState) (rc : Nat) (r : ResolveResult) (now2 : Nat),
        countRecordQuery (DNSResolver.handleQueryResult st2 rc r now2).effects = 1)
    ∧ (DNSResolver.runAttempts st 0 now
        (List.replicate k
          { status := ARES_ESERVFAIL, hostname := hostname, ip_addresses := [],
            resolution_time := dur, from_cache := false } ++
         [{ status := ARES_SUCCESS, hostname := hostname, ip_addresses := ips,
            resolution_time := dur, from_cache := false }])).1.metrics.total_queries
        = st.metrics.total_queries + (k + 1)
    ∧ (DNSResolver.runAttempts st 0 now
        (List.replicate k
          { status := ARES_ESERVFAIL, hostname := hostname, ip_addresses := [],
            resolution_time := dur, from_cache := false } ++
         [{ status := ARES_SUCCESS, hostname := hostname, ip_addresses := ips,
            resolution_time := dur, from_cache := false }])).1.metrics.failed_queries
        = st.metrics.failed_queries + k
    ∧ (DNSResolver.runAttempts st 0 now
        (List.replicate k
          { status := ARES_ESERVFAIL, hostname := hostname, ip_addresses := [],
            resolution_time := dur, from_cache := false } ++
         [{ status := ARES_SUCCESS, hostname := hostname, ip_addresses := ips,
            resolution_time := dur, from_cache := false }])).1.metrics.successful_queries
        = st.metrics.successful_queries + 1
    ∧ errorCount (DNSResolver.runAttempts st 0 now
        (List.replicate k
          { status := ARES_ESERVFAIL, hostname := hostname, ip_addresses := [],
            resolution_time := dur, from_cache := false } ++
         [{ status := ARES_SUCCESS, hostname := hostname, ip_addresses := ips,
            resolution_time := dur, from_cache := false }])).1.metrics
        "resolution_failure".toList
        = errorCount st.metrics "resolution_failure".toList + k
    ∧ countRecordQuery (DNSResolver.runAttempts st 0 now
        (List.replicate k
          { status := ARES_ESERVFAIL, hostname := hostname, ip_addresses := [],
            resolution_time := dur, from_cache := false } ++
         [{ status := ARES_SUCCESS, hostname := hostname, ip_addresses := ips,
            resolution_time := dur, from_cache := false }])).2
        = k + 1 := by
  refine ⟨?_, runAttempts_servfail_then_success hostname dur ips now hips k st 0 (by omega)⟩
  intro st2 rc r now2
  simp only [DNSResolver.handleQueryResult]
  split_ifs <;> rfl

/-- Witness for C9: two ServerFail attempts then success (scenario S3-like)
yield three total queries from one resolve call. -/
theorem c9_queries_count_attempts_witness :
    (DNSResolver.runAttempts
      { initialized := true,
        config := { servers := [{ address := "8.8.8.8".toList, port := 53, weight := 1,
                                  timeout_ms := 2000, enabled := true }],
                    cache := { enabled := true, ttl := 300000, max_size := 10000 },
                    retry := { max_attempts := 3, base_delay_ms := 10, max_delay_ms := 100 },
                    query_timeout_ms := 5000, max_concurrent_queries := 100,
                    ipv6_enabled := false, server_error_threshold := 10 },
        active_contexts := 0, cache := LRUCache.empty 10000 300000,
        metrics := Metrics.empty } 0 0
      (List.replicate 2
        { status := ARES_ESERVFAIL, hostname := "x.test".toList, ip_addresses := [],
          resolution_time := 5, from_cache := false } ++
       [{ status := ARES_SUCCESS, hostname := "x.test".toList,
          ip_addresses := ["3.3.3.3".toList],
          resolution_time := 5, from_cache := false }])).1.metrics.total_queries
    = Metrics.empty.total_queries + (2 + 1) :=
  (c9_queries_count_attempts
    { initialized := true,
      config := { servers := [{ address := "8.8.8.8".toList, port := 53, weight := 1,
                                timeout_ms := 2000, enabled := true }],
                  cache := { enabled := true, ttl := 300000, max_size := 10000 },
                  retry := { max_attempts := 3, base_delay_ms := 10, max_delay_ms := 100 },
                  query_timeout_ms := 5000, max_concurrent_queries := 100,
                  ipv6_enabled := false, server_error_threshold := 10 },
      active_contexts := 0, cache := LRUCache.empty 10000 300000,
      metrics := Metrics.empty } "x.test".toList 5 ["3.3.3.3".toList] 0 2
    (by decide) (by decide)).2.1

/-!
Helper lemmas for the RunningStats accumulator.
-/

/-- The min accumulator of a fold of updates is the min-fold of the inputs
over the initial sentinel. -/
theorem ofList_min_fold :
    ∀ (xs : List ℚ) (s : RunningStats),
      (xs.foldl RunningStats.update s).min = xs.foldl Min.min s.min := by
  intro xs
  induction xs with
  | nil => intro s; rfl
  | cons a t ih => intro s; exact ih (s.update a)

/-- The max accumulator of a fold of updates is the max-fold of the inputs
over the initial sentinel. -/
theorem ofList_max_fold :
    ∀ (xs : List ℚ) (s : RunningStats),
      (xs.foldl RunningStats.update s).max = xs.foldl Max.max s.max := by
  intro xs
  induction xs with
  | nil => intro s; rfl
  | cons a t ih => intro s; exact ih (s.update a)

/-- Folding min commutes with lowering the seed. -/
theorem foldl_min_seed :
    ∀ (l : List ℚ) (a b : ℚ),
      l.foldl Min.min (Min.min b a) = Min.min b (l.foldl Min.min a) := by
  intro l
  induction l with
  | nil => intro a b; rfl
  | cons c t ih =>
    intro a b
    simp only [List.foldl_cons]
    rw [min_assoc, ih]

/-- Folding max commutes with raising the seed. -/
theorem foldl_max_seed :
    ∀ (l : List ℚ) (a b : ℚ),
      l.foldl Max.max (Max.max b a) = Max.max b (l.foldl Max.max a) := by
  intro l
  induction l with
  | nil => intro a b; rfl
  | cons c t ih =>
    intro a b
    simp only [List.foldl_cons]
    rw [max_assoc, ih]

/-- A min-fold never exceeds its seed. -/
theorem foldl_min_le_seed : ∀ (l : List ℚ) (a : ℚ), l.foldl Min.min a ≤ a := by
  intro l
  induction l with
  | nil => intro a; exact le_refl a
  | cons c t ih =>
    intro a
    simp only [List.foldl_cons]
    exact le_trans (ih (Min.min a c)) (min_le_left a c)

/-- A max-fold never drops below its seed. -/
theorem le_foldl_max_seed : ∀ (l : List ℚ) (a : ℚ), a ≤ l.foldl Max.max a := by
  intro l
  induction l with
  | nil => intro a; exact le_refl a
  | cons c t ih =>
    intro a
    simp only [List.foldl_cons]
    exact le_trans (le_max_left a c) (ih (Max.max a c))

/-- Count, mean and M2 of the accumulator after a nonempty stream: count is
the stream length, mean * n the stream sum, and M2 the sum of squares
corrected by the squared sum (Welford's invariant). -/
theorem ofList_welford_invariant :
    ∀ (xs : List ℚ), xs ≠ [] →
      (RunningStats.ofList xs).count = (xs.length : ℚ)
      ∧ (RunningStats.ofList xs).mean = xs.sum / (xs.length : ℚ)
      ∧ (RunningStats.ofList xs).m2 =
          (xs.map (fun y => y ^ 2)).sum - xs.sum ^ 2 / (xs.length : ℚ) := by
  intro xs
  induction xs using List.reverseRecOn with
  | nil => intro h; exact absurd rfl h
  | append_singleton ys y ih =>
    intro _
    have hstep : RunningStats.ofList (ys ++ [y]) =
        (RunningStats.ofList ys).update y := by
      rw [RunningStats.ofList, List.foldl_append]
      rfl
    cases ys with
    | nil =>
      rw [hstep]
      refine ⟨by norm_num [RunningStats.ofList, RunningStats.init, RunningStats.update], ?_, ?_⟩
      · simp [RunningStats.ofList, RunningStats.init, RunningStats.update]
      · simp [RunningStats.ofList, RunningStats.init, RunningStats.update]
    | cons z zs =>
      have hys : (z :: zs : List ℚ) ≠ [] := List.cons_ne_nil z zs
      obtain ⟨hc, hm, hq⟩ := ih hys
      have hlenpos : (0 : ℚ) < ((z :: zs : List ℚ).length : ℚ) := by
        have : 0 < (z :: zs : List ℚ).length := List.length_pos.mpr hys
        exact_mod_cast this
      have hlen1 : (0 : ℚ) < ((z :: zs : List ℚ).length : ℚ) + 1 := by linarith
      rw [hstep]
      simp only [RunningStats.update, hc, hm, hq]
      refine ⟨?_, ?_, ?_⟩
      · push_cast
        simp [List.length_append]
      · rw [List.sum_append, List.length_append]
        push_cast
        field_simp
        ring
      · rw [List.map_append, List.sum_append, List.sum_append, List.length_append]
        push_cast
        field_simp
        ring

/-- Expansion of the sum of squared deviations from an arbitrary center. -/
theorem sum_sq_dev (μ : ℚ) :
    ∀ (xs : List ℚ),
      (xs.map (fun y => (y - μ) ^ 2)).sum =
        (xs.map (fun y => y ^ 2)).sum - 2 * μ * xs.sum + (xs.length : ℚ) * μ ^ 2 := by
  intro xs
  induction xs with
  | nil => simp
  | cons a t ih =>
    simp only [List.map_cons, List.sum_cons, List.length_cons, ih]
    push_cast
    ring

/-- C8.  RunningStats implements Welford's online algorithm (embedded over
exact rationals, so the 1e-9 tolerance of the claim is met with exact
equality): after a nonempty stream, count is the stream length, mean is the
arithmetic mean, min and max are the least and greatest inputs (the bound
hypothesis says every input is a representable double, so the sentinels
DBL_MAX and its negation are absorbed), M2 is the sum of squared deviations
from the mean, and the variance — whose square root the C++ returns as
stddev, sqrt being injective on nonnegatives — is M2/(n-1) for n > 1 and 0
otherwise. -/
theorem c8_running_stats_welford (x : ℚ) (xs : List ℚ)
    (hbound : ∀ y ∈ x :: xs, -DBL_MAX_Q ≤ y ∧ y ≤ DBL_MAX_Q) :
    (RunningStats.ofList (x :: xs)).count = (((x :: xs) : List ℚ).length : ℚ)
    ∧ (RunningStats.ofList (x :: xs)).mean =
        ((x :: xs) : List ℚ).sum / (((x :: xs) : List ℚ).length : ℚ)
    ∧ (RunningStats.ofList (x :: xs)).min = xs.foldl Min.min x
    ∧ (RunningStats.ofList (x :: xs)).max = xs.foldl Max.max x
    ∧ (RunningStats.ofList (x :: xs)).m2 =
        (((x :: xs) : List ℚ).map
          (fun y => (y - (RunningStats.ofList (x :: xs)).mean) ^ 2)).sum
    ∧ RunningStats.variance (RunningStats.ofList (x :: xs)) =
        (if (1 : ℚ) < (RunningStats.ofList (x :: xs)).count
         then (RunningStats.ofList (x :: xs)).m2 /
                ((RunningStats.ofList (x :: xs)).count - 1)
         else 0) := by
  obtain ⟨hc, hm, hq⟩ := ofList_welford_invariant (x :: xs) (List.cons_ne_nil x xs)
  have hxb := hbound x (List.mem_cons_self x xs)
  have hlenpos : (0 : ℚ) < (((x :: xs) : List ℚ).length : ℚ) := by
    have : 0 < ((x :: xs) : List ℚ).length := List.length_pos.mpr (List.cons_ne_nil x xs)
    exact_mod_cast this
  refine ⟨hc, hm, ?_, ?_, ?_, rfl⟩
  · rw [show (RunningStats.ofList (x :: xs)).min =
        ((x :: xs) : List ℚ).foldl Min.min RunningStats.init.min from
      ofList_min_fold (x :: xs) RunningStats.init]
    show xs.foldl Min.min (Min.min DBL_MAX_Q x) = xs.foldl Min.min x
    rw [foldl_min_seed]
    exact min_eq_right (le_trans (foldl_min_le_seed xs x) hxb.2)
  · rw [show (RunningStats.ofList (x :: xs)).max =
        ((x :: xs) : List ℚ).foldl Max.max RunningStats.init.max from
      ofList_max_fold (x :: xs) RunningStats.init]
    show xs.foldl Max.max (Max.max (-DBL_MAX_Q) x) = xs.foldl Max.max x
    rw [foldl_max_seed]
    exact max_eq_right (le_trans hxb.1 (le_foldl_max_seed xs x))
  · rw [hq, hm, sum_sq_dev]
    field_simp
    ring

/-- Witness for C8: the stream 1, 2, 3 has mean (1+2+3)/3. -/
theorem c8_running_stats_welford_witness :
    (RunningStats.ofList [1, 2, 3]).mean =
      (([1, 2, 3] : List ℚ).sum / ((([1, 2, 3] : List ℚ).length : ℚ))) :=
  (c8_running_stats_welford 1 [2, 3]
    (by
      intro y hy
      simp only [List.mem_cons, List.not_mem_nil, or_false] at hy
      rcases hy with rfl | rfl | rfl <;> constructor <;> norm_num [DBL_MAX_Q])).2.1

/-- The head of a descending-sorted score list bounds every element. -/
theorem sortedDesc_head_max :
    ∀ (xs : List (List Char × ℚ)) (x : List Char × ℚ),
      SortedByScoreDesc (x :: xs) → ∀ p ∈ x :: xs, p.2 ≤ x.2 := by
  intro xs
  induction xs with
  | nil =>
    intro x _ p hp
    rw [List.mem_singleton] at hp
    exact hp ▸ le_refl _
  | cons b t ih =>
    intro x hs p hp
    rw [SortedByScoreDesc, List.chain'_cons] at hs
    rcases List.mem_cons.mp hp with rfl | hp2
    · exact le_refl _
    · exact le_trans (ih b hs.2 p hp2) hs.1

/-- C4 (amended).  The selector considers exactly the configured servers
that are enabled, tracked in the health map and healthy, scored
weight / (1 + avg_latency_ms); when at least one server is eligible the
returned server carries a maximal score, but ties are resolved in an
UNSPECIFIED order (std::ranges::sort is not stable), not necessarily
first-configured; when none is eligible every tracked server is reset to
healthy with a zero error count and the first configured server is
returned; and a server (nonempty address) is returned iff at least one
server is configured. -/
theorem c4_select_server (servers : List DNSServerConfig)
    (health health2 : List (List Char × ServerHealth)) (out : List Char)
    (haddr : ∀ s ∈ servers, s.address ≠ [])
    (hrel : SelectServerOutcome servers health out health2) :
    (∀ (addr : List Char) (q : ℚ),
        (addr, q) ∈ availableServers servers health ↔
          ∃ s ∈ servers, s.enabled = true ∧
            ∃ hrec, healthLookup health s.address = some hrec ∧ hrec.healthy = true
              ∧ addr = s.address ∧ q = serverScore s.weight hrec.avg_latency_ms)
    ∧ (availableServers servers health ≠ [] →
        (∃ q, (out, q) ∈ availableServers servers health
          ∧ (∀ p ∈ availableServers servers health, p.2 ≤ q))
        ∧ health2 = health)
    ∧ (∀ s0 rest, servers = s0 :: rest → availableServers servers health = [] →
        out = s0.address ∧ health2 = resetHealth health)
    ∧ (out ≠ [] ↔ servers ≠ []) := by
  refine ⟨?_, ?_, ?_, ?_⟩
  · intro addr q
    rw [availableServers, List.mem_filterMap]
    constructor
    · rintro ⟨s, hs, hf⟩
      refine ⟨s, hs, ?_⟩
      cases hlk : healthLookup health s.address with
      | none => rw [hlk] at hf; exact absurd hf (by simp)
      | some hrec =>
        rw [hlk] at hf
        have hf2 : (if (s.enabled && hrec.healthy) = true then
            some (s.address, serverScore s.weight hrec.avg_latency_ms)
          else none) = some (addr, q) := hf
        by_cases hcond : s.enabled && hrec.healthy
        · rw [if_pos hcond] at hf2
          have h1 := (Prod.mk.injEq _ _ _ _).mp (Option.some.inj hf2)
          rcases Bool.and_eq_true _ _ |>.mp hcond with ⟨he, hh⟩
          exact ⟨he, hrec, rfl, hh, h1.1.symm, h1.2.symm⟩
        · rw [if_neg hcond] at hf2
          exact absurd hf2 (by simp)
    · rintro ⟨s, hs, he, hrec, hlk, hh, rfl, rfl⟩
      refine ⟨s, hs, ?_⟩
      rw [hlk]
      show (if (s.enabled && hrec.healthy) = true then
              some (s.address, serverScore s.weight hrec.avg_latency_ms)
            else none) = some (s.address, serverScore s.weight hrec.avg_latency_ms)
      rw [if_pos (by rw [he, hh]; rfl)]
  · intro hav
    have hserv : servers ≠ [] := by
      intro hnil
      rw [hnil] at hav
      exact hav rfl
    cases servers with
    | nil => exact absurd rfl hserv
    | cons s0 rest =>
      rw [SelectServerOutcome, if_neg hav] at hrel
      obtain ⟨q, rest2, hperm, hsort, hh2⟩ := hrel
      refine ⟨⟨q, ?_, ?_⟩, hh2⟩
      · exact hperm.mem_iff.mp (List.mem_cons_self _ _)
      · intro p hp
        exact sortedDesc_head_max rest2 (out, q) hsort p (hperm.symm.mem_iff.mp hp)
  · intro s0 rest heq hav
    subst heq
    rw [SelectServerOutcome, if_pos hav] at hrel
    exact hrel
  · cases servers with
    | nil =>
      rw [SelectServerOutcome] at hrel
      rw [hrel.1]
      simp
    | cons s0 rest =>
      constructor
      · intro _
        exact List.cons_ne_nil s0 rest
      · intro _
        rw [SelectServerOutcome] at hrel
        by_cases hav : availableServers (s0 :: rest) health = []
        · rw [if_pos hav] at hrel
          rw [hrel.1]
          exact haddr s0 (List.mem_cons_self s0 rest)
        · rw [if_neg hav] at hrel
          obtain ⟨q, rest2, hperm, -, -⟩ := hrel
          have hmem : (out, q) ∈ availableServers (s0 :: rest) health :=
            hperm.mem_iff.mp (List.mem_cons_self _ _)
          rw [availableServers, List.mem_filterMap] at hmem
          obtain ⟨s, hs, hf⟩ := hmem
          cases hlk : healthLookup health s.address with
          | none => rw [hlk] at hf; exact absurd hf (by simp)
          | some hrec =>
            rw [hlk] at hf
            have hf2 : (if (s.enabled && hrec.healthy) = true then
                some (s.address, serverScore s.weight hrec.avg_latency_ms)
              else none) = some (out, q) := hf
            by_cases hcond : s.enabled && hrec.healthy
            · rw [if_pos hcond] at hf2
              have h1 := (Prod.mk.injEq _ _ _ _).mp (Option.some.inj hf2)
              rw [← h1.1]
              exact haddr s hs
            · rw [if_neg hcond] at hf2
              exact absurd hf2 (by simp)

/-- Counterexample for C4 as stated: two equal-weight, equal-latency
healthy servers tie on score; the unstable std::ranges::sort permits the
sorted order that puts the second-configured "9.9.9.9" first, so the
selector may return it, while the spec's first-configured tie-break
(selectServerSpec) demands "8.8.8.8". -/
theorem c4_select_server_counterexample :
    SelectServerOutcome
      [{ address := "8.8.8.8".toList, port := 53, weight := 1, timeout_ms := 2000,
         enabled := true },
       { address := "9.9.9.9".toList, port := 53, weight := 1, timeout_ms := 2000,
         enabled := true }]
      [("8.8.8.8".toList, { healthy := true, error_count := 0, avg_latency_ms := 0 }),
       ("9.9.9.9".toList, { healthy := true, error_count := 0, avg_latency_ms := 0 })]
      "9.9.9.9".toList
      [("8.8.8.8".toList, { healthy := true, error_count := 0, avg_latency_ms := 0 }),
       ("9.9.9.9".toList, { healthy := true, error_count := 0, avg_latency_ms := 0 })]
    ∧ selectServerSpec
        [{ address := "8.8.8.8".toList, port := 53, weight := 1, timeout_ms := 2000,
           enabled := true },
         { address := "9.9.9.9".toList, port := 53, weight := 1, timeout_ms := 2000,
           enabled := true }]
        [("8.8.8.8".toList, { healthy := true, error_count := 0, avg_latency_ms := 0 }),
         ("9.9.9.9".toList, { healthy := true, error_count := 0, avg_latency_ms := 0 })]
        = "8.8.8.8".toList
    ∧ availableServers
        [{ address := "8.8.8.8".toList, port := 53, weight := 1, timeout_ms := 2000,
           enabled := true },
         { address := "9.9.9.9".toList, port := 53, weight := 1, timeout_ms := 2000,
           enabled := true }]
        [("8.8.8.8".toList, { healthy := true, error_count := 0, avg_latency_ms := 0 }),
         ("9.9.9.9".toList, { healthy := true, error_count := 0, avg_latency_ms := 0 })]
        = [("8.8.8.8".toList, serverScore 1 0), ("9.9.9.9".toList, serverScore 1 0)]
    ∧ "9.9.9.9".toList ≠ "8.8.8.8".toList := by
  refine ⟨?_, ?_, rfl, by decide⟩
  · show if availableServers
        [{ address := "8.8.8.8".toList, port := 53, weight := 1, timeout_ms := 2000,
           enabled := true },
         { address := "9.9.9.9".toList, port := 53, weight := 1, timeout_ms := 2000,
           enabled := true }]
        [("8.8.8.8".toList, { healthy := true, error_count := 0, avg_latency_ms := 0 }),
         ("9.9.9.9".toList, { healthy := true, error_count := 0, avg_latency_ms := 0 })]
        = [] then
      "9.9.9.9".toList = "8.8.8.8".toList
      ∧ [("8.8.8.8".toList,
           ({ healthy := true, error_count := 0, avg_latency_ms := 0 } : ServerHealth)),
         ("9.9.9.9".toList,
           ({ healthy := true, error_count := 0, avg_latency_ms := 0 } : ServerHealth))]
        = resetHealth
            [("8.8.8.8".toList, { healthy := true, error_count := 0, avg_latency_ms := 0 }),
             ("9.9.9.9".toList, { healthy := true, error_count := 0, avg_latency_ms := 0 })]
    else
      ∃ q rest,
        (("9.9.9.9".toList, q) :: rest).Perm
          (availableServers
            [{ address := "8.8.8.8".toList, port := 53, weight := 1, timeout_ms := 2000,
               enabled := true },
             { address := "9.9.9.9".toList, port := 53, weight := 1, timeout_ms := 2000,
               enabled := true }]
            [("8.8.8.8".toList, { healthy := true, error_count := 0, avg_latency_ms := 0 }),
             ("9.9.9.9".toList, { healthy := true, error_count := 0, avg_latency_ms := 0 })])
        ∧ SortedByScoreDesc (("9.9.9.9".toList, q) :: rest)
        ∧ [("8.8.8.8".toList,
             ({ healthy := true, error_count := 0, avg_latency_ms := 0 } : ServerHealth)),
           ("9.9.9.9".toList,
             ({ healthy := true, error_count := 0, avg_latency_ms := 0 } : ServerHealth))]
          = [("8.8.8.8".toList, { healthy := true, error_count := 0, avg_latency_ms := 0 }),
             ("9.9.9.9".toList, { healthy := true, error_count := 0, avg_latency_ms := 0 })]
    rw [if_neg (by decide)]
    refine ⟨serverScore 1 0, [("8.8.8.8".toList, serverScore 1 0)], ?_, ?_, rfl⟩
    · exact List.Perm.swap _ _ _
    · simp [SortedByScoreDesc]
  · rw [selectServerSpec]
    rw [show availableServers
      [{ address := "8.8.8.8".toList, port := 53, weight := 1, timeout_ms := 2000,
         enabled := true },
       { address := "9.9.9.9".toList, port := 53, weight := 1, timeout_ms := 2000,
         enabled := true }]
      [("8.8.8.8".toList, { healthy := true, error_count := 0, avg_latency_ms := 0 }),
       ("9.9.9.9".toList, { healthy := true, error_count := 0, avg_latency_ms := 0 })] =
      [("8.8.8.8".toList, serverScore 1 0), ("9.9.9.9".toList, serverScore 1 0)] from rfl]
    simp [List.find?, lt_irrefl]

/-- Witness for C4: with "8.8.8.8" at latency 0 (score 1) and "9.9.9.9" at
latency 1 (score 1/2), a valid selection returns "8.8.8.8" carrying the
maximal score. -/
theorem c4_select_server_witness :
    (∃ q, ("8.8.8.8".toList, q) ∈ availableServers
        [{ address := "8.8.8.8".toList, port := 53, weight := 1, timeout_ms := 2000,
           enabled := true },
         { address := "9.9.9.9".toList, port := 53, weight := 1, timeout_ms := 2000,
           enabled := true }]
        [("8.8.8.8".toList, { healthy := true, error_count := 0, avg_latency_ms := 0 }),
         ("9.9.9.9".toList, { healthy := true, error_count := 0, avg_latency_ms := 1 })]
      ∧ (∀ p ∈ availableServers
          [{ address := "8.8.8.8".toList, port := 53, weight := 1, timeout_ms := 2000,
             enabled := true },
           { address := "9.9.9.9".toList, port := 53, weight := 1, timeout_ms := 2000,
             enabled := true }]
          [("8.8.8.8".toList, { healthy := true, error_count := 0, avg_latency_ms := 0 }),
           ("9.9.9.9".toList, { healthy := true, error_count := 0, avg_latency_ms := 1 })],
          p.2 ≤ q)) := by
  have hrel : SelectServerOutcome
      [{ address := "8.8.8.8".toList, port := 53, weight := 1, timeout_ms := 2000,
         enabled := true },
       { address := "9.9.9.9".toList, port := 53, weight := 1, timeout_ms := 2000,
         enabled := true }]
      [("8.8.8.8".toList, { healthy := true, error_count := 0, avg_latency_ms := 0 }),
       ("9.9.9.9".toList, { healthy := true, error_count := 0, avg_latency_ms := 1 })]
      "8.8.8.8".toList
      [("8.8.8.8".toList, { healthy := true, error_count := 0, avg_latency_ms := 0 }),
       ("9.9.9.9".toList, { healthy := true, error_count := 0, avg_latency_ms := 1 })] := by
    show if availableServers
        [{ address := "8.8.8.8".toList, port := 53, weight := 1, timeout_ms := 2000,
           enabled := true },
         { address := "9.9.9.9".toList, port := 53, weight := 1, timeout_ms := 2000,
           enabled := true }]
        [("8.8.8.8".toList, { healthy := true, error_count := 0, avg_latency_ms := 0 }),
         ("9.9.9.9".toList, { healthy := true, error_count := 0, avg_latency_ms := 1 })]
        = [] then
      "8.8.8.8".toList = "8.8.8.8".toList
      ∧ [("8.8.8.8".toList,
           ({ healthy := true, error_count := 0, avg_latency_ms := 0 } : ServerHealth)),
         ("9.9.9.9".toList,
           ({ healthy := true, error_count := 0, avg_latency_ms := 1 } : ServerHealth))]
        = resetHealth
            [("8.8.8.8".toList, { healthy := true, error_count := 0, avg_latency_ms := 0 }),
             ("9.9.9.9".toList, { healthy := true, error_count := 0, avg_latency_ms := 1 })]
    else
      ∃ q rest,
        (("8.8.8.8".toList, q) :: rest).Perm
          (availableServers
            [{ address := "8.8.8.8".toList, port := 53, weight := 1, timeout_ms := 2000,
               enabled := true },
             { address := "9.9.9.9".toList, port := 53, weight := 1, timeout_ms := 2000,
               enabled := true }]
            [("8.8.8.8".toList, { healthy := true, error_count := 0, avg_latency_ms := 0 }),
             ("9.9.9.9".toList, { healthy := true, error_count := 0, avg_latency_ms := 1 })])
        ∧ SortedByScoreDesc (("8.8.8.8".toList, q) :: rest)
        ∧ [("8.8.8.8".toList,
             ({ healthy := true, error_count := 0, avg_latency_ms := 0 } : ServerHealth)),
           ("9.9.9.9".toList,
             ({ healthy := true, error_count := 0, avg_latency_ms := 1 } : ServerHealth))]
          = [("8.8.8.8".toList, { healthy := true, error_count := 0, avg_latency_ms := 0 }),
             ("9.9.9.9".toList, { healthy := true, error_count := 0, avg_latency_ms := 1 })]
    rw [if_neg (by decide)]
    refine ⟨serverScore 1 0, [("9.9.9.9".toList, serverScore 1 1)], ?_, ?_, rfl⟩
    · exact List.Perm.refl _
    · simp only [SortedByScoreDesc, List.chain'_cons, List.chain'_singleton, and_true]
      norm_num [serverScore]
  exact ((c4_select_server _ _ _ "8.8.8.8".toList (by decide) hrel).2.1 (by decide)).1
